import Mathlib

/-!
Verification of the Rick-and-Morty-to-HubSpot migration service.

This file is a shallow embedding, in Lean 4, of the synchronization engine of
the repository: the retry/backoff wrapper `makeHubspotApiCallWithRetry`, the
primality-based record selection (`isPrime` from `src/utils/math.js`), the
entity mappers `characterToContactMapping` and `locationToCompanyMapping`, the
three-phase orchestrator `migrateRickAndMortyToHubspot` from
`src/services/hubspotMigrationService.js`, and the webhook upsert entry points
`upsertContact` / `upsertCompany` from `src/routes/webhookRoutes.js`.

Remote calls are modelled by explicit outcome oracles: the catalog is a
function from ids / urls to optional records (`none` = the fetch threw), and
each HubSpot call site is given a fault oracle saying whether that call
(through the retry wrapper) ultimately succeeded or threw.  The destination
CRM is a concrete state (lists of contact and company records plus an id
counter), searches are exact-match filters over that state, and the run
functions thread the state exactly as the JavaScript threads its awaits.
Observational instrumentation (lists of attempted indices, computed delays,
created/updated counters) is added to the results so that behavioural
properties can be stated; it never influences control flow.
-/

namespace RickMorty

/-! ## Resilient remote client: `makeHubspotApiCallWithRetry`
(src/services/hubspotMigrationService.js, lines 6-44)

A JavaScript error as inspected by the wrapper: `error.response?.status`,
`error.code`, and the parsed `retry-after` header
(`parseInt(error.response.headers['retry-after'], 10)`; `none` models a
missing or non-numeric header, where `parseInt` yields `NaN`). -/
structure JsError where
  status : Option Nat
  code : Option String
  retryAfterHeader : Option Nat
deriving DecidableEq, Repr

/-- The outcome of one attempt of the wrapped API call. -/
inductive AttemptOutcome (α : Type) where
  | ok (r : α)
  | err (e : JsError)

/-- Result of running the wrapper.  `tried` records the indices of the
attempts that were consumed, `delays` the computed backoff sleeps, in order.
`thrownExhausted` carries what the code attaches to the final error:
`finalError.originalError = args[0]`, the first argument of the call. -/
inductive RunResult (α β : Type) where
  | success (r : α) (tried : List Nat) (delays : List Nat)
  | thrownNonRetryable (e : JsError) (tried : List Nat) (delays : List Nat)
  | thrownExhausted (originalError : β) (tried : List Nat) (delays : List Nat)
deriving DecidableEq

def MAX_HUBSPOT_RETRIES : Nat := 3

def HUBSPOT_INITIAL_RETRY_DELAY_MS : Nat := 2000

/-- `error.response?.status >= 500 || error.code === 'ECONNABORTED' ||
error.code === 'ETIMEDOUT'` (a missing status compares false in JS). -/
def isTransientError (e : JsError) : Bool :=
  (match e.status with
   | some s => decide (500 ≤ s)
   | none => false)
  || e.code == some "ECONNABORTED" || e.code == some "ETIMEDOUT"

/-- Delay on a 429: `parseInt(headers['retry-after'], 10) * 1000 ||
HUBSPOT_INITIAL_RETRY_DELAY_MS * Math.pow(2, i)`.  The `||` falls back when
the left side is `NaN` (missing header) or `0`. -/
def rateLimitDelay (e : JsError) (i : Nat) : Nat :=
  match e.retryAfterHeader with
  | some s => if s * 1000 == 0 then HUBSPOT_INITIAL_RETRY_DELAY_MS * 2 ^ i else s * 1000
  | none => HUBSPOT_INITIAL_RETRY_DELAY_MS * 2 ^ i

/-- The `for (let i = 0; i < MAX_HUBSPOT_RETRIES; i++)` loop.  `fuel` is the
number of loop iterations left (initially `MAX_HUBSPOT_RETRIES`), `i` the
current attempt index.  When the loop ends, a fresh error is thrown with
`originalError = args[0]` (modelled by `arg0`). -/
def retryLoopAux {α β : Type} (attempts : Nat → AttemptOutcome α) (arg0 : β) :
    Nat → Nat → List Nat → List Nat → RunResult α β
  | 0, _, tried, delays => .thrownExhausted arg0 tried delays
  | fuel + 1, i, tried, delays =>
    match attempts i with
    | .ok r => .success r (tried ++ [i]) delays
    | .err e =>
      if e.status == some 429 then
        retryLoopAux attempts arg0 fuel (i + 1) (tried ++ [i])
          (delays ++ [rateLimitDelay e i])
      else if isTransientError e then
        retryLoopAux attempts arg0 fuel (i + 1) (tried ++ [i])
          (delays ++ [HUBSPOT_INITIAL_RETRY_DELAY_MS * 2 ^ i])
      else .thrownNonRetryable e (tried ++ [i]) delays

/-- `makeHubspotApiCallWithRetry(apiCall, ...args)`: `attempts i` is the
outcome of the `i`-th `await apiCall(...args)`, `arg0` models `args[0]`. -/
def makeHubspotApiCallWithRetry {α β : Type} (attempts : Nat → AttemptOutcome α)
    (arg0 : β) : RunResult α β :=
  retryLoopAux attempts arg0 MAX_HUBSPOT_RETRIES 0 [] []

/-- An error is retried iff it is a rate-limit signal or transient. -/
def retryableError (e : JsError) : Bool :=
  (e.status == some 429) || isTransientError e

/-- The delay the loop computes before retrying attempt `i` that failed with
`e` (429 branch or transient branch). -/
def backoffDelayOf (e : JsError) (i : Nat) : Nat :=
  if e.status == some 429 then rateLimitDelay e i
  else HUBSPOT_INITIAL_RETRY_DELAY_MS * 2 ^ i

/-- A 429 failure whose `retry-after` hint actually overrides the exponential
delay (present and nonzero after the `|| fallback`). -/
def usesWaitHint (e : JsError) : Bool :=
  (e.status == some 429) &&
    (match e.retryAfterHeader with
     | some s => !(s * 1000 == 0)
     | none => false)

/-- Non-decreasing check on a list of delays. -/
def delaysNonDecreasing : List Nat → Bool
  | [] => true
  | [_] => true
  | a :: b :: t => decide (a ≤ b) && delaysNonDecreasing (b :: t)

/-! ## Record selection (`isPrime` from src/utils/math.js, and the loop
condition `i === 1 || isPrime(i)` in the migration orchestrator) -/

/-- The 6k±1 trial-division loop `for (let i = 5; i * i <= num; i += 6)`.
`fuel` bounds the recursion; since `i` grows by 6 each step and the loop
exits as soon as `i * i > num`, a fuel of `num` is never exhausted for the
entry value `i = 5`. -/
def isPrimeLoop (num : Nat) : Nat → Nat → Bool
  | 0, _ => true
  | fuel + 1, i =>
    if i * i ≤ num then
      if num % i == 0 || num % (i + 2) == 0 then false
      else isPrimeLoop num fuel (i + 6)
    else true

/-- `isPrime` from src/utils/math.js. -/
def isPrime (num : Nat) : Bool :=
  if num ≤ 1 then false
  else if num ≤ 3 then true
  else if num % 2 == 0 || num % 3 == 0 then false
  else isPrimeLoop num num 5

/-- The record-selection predicate of the headline migration path:
`i === 1 || isPrime(i)` (hubspotMigrationService.js line 103). -/
def selectsId (i : Nat) : Bool :=
  i == 1 || isPrime i

/-! ## Entity mappers (hubspotMigrationService.js, lines 51-83) -/

/-- A Rick and Morty character as consumed by the mapper:
`id`, `name`, `status`, `species`, `gender`, and `origin?.url`
(`none` models a missing origin object; the API also uses `""`). -/
structure Character where
  id : Nat
  name : String
  status : String
  species : String
  gender : String
  originUrl : Option String
deriving DecidableEq, Repr

/-- A Rick and Morty location as consumed by the company mapper:
`name`, `type` (optional, `location.type || 'Fictional Location'`),
`url`, `dimension`. -/
structure Location where
  name : String
  type_ : Option String
  url : String
  dimension : String
deriving DecidableEq, Repr

/-- JS `String.prototype.toLowerCase` restricted to ASCII data. -/
def lowerStr (s : String) : String :=
  String.mk (s.data.map Char.toLower)

/-- JS whitespace class `\s` restricted to its ASCII members. -/
def isJsWhitespace (c : Char) : Bool :=
  c == ' ' || c == '\t' || c == '\n' || c == '\r' || c == '\x0b' || c == '\x0c'

/-- JS `.replace(/\s/g, '')`: drop every whitespace character. -/
def stripWs (s : String) : String :=
  String.mk (s.data.filter (fun c => !isJsWhitespace c))

/-- HubSpot contact properties as built by the live mapper. -/
structure ContactProps where
  firstname : String
  lastname : String
  email : String
  phone : String
  lifecyclestage : String
  character_id : String
  character_status : String
  character_species : String
  character_gender : String
deriving DecidableEq, Repr

/-- The derived email of the live mapper (hubspotMigrationService.js line 56):
name lower-cased, whitespace stripped, then an underscore, the id,
and the fixed domain. -/
def characterEmail (c : Character) : String :=
  stripWs (lowerStr c.name) ++ "_" ++ toString c.id ++ "@rickandmorty.com"

/-- `characterToContactMapping` (hubspotMigrationService.js lines 51-66). -/
def characterToContactMapping (c : Character) : ContactProps :=
  { firstname := c.name
    lastname := ""
    email := characterEmail c
    phone := ""
    lifecyclestage := "lead"
    character_id := toString c.id
    character_status := c.status
    character_species := c.species
    character_gender := c.gender }

/-- HubSpot company properties as built by the mapper. -/
structure CompanyProps where
  name : String
  industry : String
  location_url : String
  location_dimension : String
deriving DecidableEq, Repr

/-- `locationToCompanyMapping` (hubspotMigrationService.js lines 73-83).
`location.type || 'Fictional Location'` treats a missing or empty type as
falsy. -/
def locationToCompanyMapping (loc : Location) : CompanyProps :=
  { name := loc.name
    industry :=
      match loc.type_ with
      | some t => if t == "" then "Fictional Location" else t
      | none => "Fictional Location"
    location_url := loc.url
    location_dimension := loc.dimension }

/-! ## Email format check

The repository's format validator (`isValidEmail` in the draft migration
module, src/unnamed/part_001 lines 17-20) implements the standard pattern
`^[a-zA-Z0-9._%+-]+@[a-zA-Z0-9.-]+\.[a-zA-Z]{2,}$`.  It is embedded here as
a character-list matcher: since `@` belongs to neither class there must be
exactly one `@`, and since the final `[a-zA-Z]{2,}` cannot contain a dot,
the dot consumed by `\.` must be the last dot of the domain. -/

/-- Split a character list at every occurrence of `sep` (the separators are
dropped; adjacent separators yield empty segments). -/
def splitChar (sep : Char) : List Char → List (List Char)
  | [] => [[]]
  | c :: rest =>
    let r := splitChar sep rest
    if c == sep then [] :: r
    else
      match r with
      | [] => [[c]]
      | h :: t => (c :: h) :: t

/-- `[a-zA-Z0-9._%+-]` (the local-part class). -/
def isEmailLocalChar (c : Char) : Bool :=
  c.isAlpha || c.isDigit || c == '.' || c == '_' || c == '%' || c == '+' || c == '-'

/-- `[a-zA-Z0-9.-]` (the domain class). -/
def isEmailDomainChar (c : Char) : Bool :=
  c.isAlpha || c.isDigit || c == '.' || c == '-'

/-- Re-join dot-separated segments. -/
def joinDots : List (List Char) → List Char
  | [] => []
  | [x] => x
  | x :: xs => x ++ '.' :: joinDots xs

/-- `isValidEmail` (draft module src/unnamed/part_001):
`^[a-zA-Z0-9._%+-]+@[a-zA-Z0-9.-]+\.[a-zA-Z]{2,}$`. -/
def isValidEmail (s : String) : Bool :=
  match splitChar '@' s.data with
  | [l, d] =>
    (!l.isEmpty) && l.all isEmailLocalChar &&
      (let segs := splitChar '.' d
       match segs.getLast? with
       | some tld =>
         decide (2 ≤ tld.length) && tld.all (fun c => c.isAlpha) &&
           (let base := joinDots segs.dropLast
            (!base.isEmpty) && base.all isEmailDomainChar)
       | none => false)
  | _ => false

/-- The local part of an email: the characters before the first `@`. -/
def localPartChars (s : String) : List Char :=
  s.data.takeWhile (fun c => !(c == '@'))

/-- `[a-z0-9]`. -/
def isLowerOrDigit (c : Char) : Bool :=
  c.isLower || c.isDigit

/-- The spec pattern `^[a-z0-9]+1$` for the local part of the email derived
for id 1 (normalized name followed by the id).  Since `1` is itself in
`[a-z0-9]`, a string matches iff it has length at least two, every character
is in `[a-z0-9]`, and the last character is `1`. -/
def matchesNormNameThenOne (cs : List Char) : Bool :=
  decide (2 ≤ cs.length) && cs.all isLowerOrDigit && (cs.getLast? == some '1')

/-! ## Destination CRM state

The destination store holds contact and company records with
destination-assigned ids; searches are exact-match filters capped at one
result (`limit: 1`), create appends a record under a fresh id, update
replaces the properties of the record with the given id. -/

structure ContactRec where
  id : Nat
  props : ContactProps
deriving DecidableEq, Repr

structure CompanyRec where
  id : Nat
  props : CompanyProps
deriving DecidableEq, Repr

structure CrmState where
  contacts : List ContactRec
  companies : List CompanyRec
  assocs : List (Nat × Nat)
  nextId : Nat
deriving DecidableEq, Repr

/-- The initially empty destination.  Ids start at 1 (destination ids are
nonzero). -/
def emptyCrm : CrmState :=
  { contacts := [], companies := [], assocs := [], nextId := 1 }

/-- `crm.companies.searchApi.doSearch` with filter `name EQ value`,
`limit: 1`: the first record whose `name` property equals the value,
case-sensitively. -/
def searchCompanyByName (st : CrmState) (nm : String) : Option CompanyRec :=
  st.companies.find? (fun r => r.props.name == nm)

/-- `crm.contacts.searchApi.doSearch` with filter `email EQ value`,
`limit: 1`. -/
def searchContactByEmail (st : CrmState) (em : String) : Option ContactRec :=
  st.contacts.find? (fun r => r.props.email == em)

def updateCompanyInState (st : CrmState) (cid : Nat) (p : CompanyProps) : CrmState :=
  { st with companies := st.companies.map (fun r => if r.id == cid then { r with props := p } else r) }

def createCompanyInState (st : CrmState) (p : CompanyProps) : CrmState :=
  { st with companies := st.companies ++ [{ id := st.nextId, props := p }], nextId := st.nextId + 1 }

def updateContactInState (st : CrmState) (cid : Nat) (p : ContactProps) : CrmState :=
  { st with contacts := st.contacts.map (fun r => if r.id == cid then { r with props := p } else r) }

def createContactInState (st : CrmState) (p : ContactProps) : CrmState :=
  { st with contacts := st.contacts ++ [{ id := st.nextId, props := p }], nextId := st.nextId + 1 }

/-! ## Environment: catalog and per-call fault oracle

`info` is the outcome of the initial `getCharactersInfo()` (the character
count; `none` = the fetch threw, which is the only error the orchestrator
rethrows).  `charById` / `locByUrl` are the per-record catalog fetches
(`none` = the fetch threw; those errors are caught per record).  `fault`
says, for each HubSpot call site, whether the call — through the retry
wrapper — ultimately threw (either a non-retryable error or retries
exhausted). -/

inductive HsCall where
  | companySearch (name : String)
  | companyUpdate (id : Nat)
  | companyCreate (name : String) (inCatch : Bool)
  | contactSearch (email : String)
  | contactUpdate (id : Nat)
  | contactCreate (email : String) (inCatch : Bool)
  | assocCreate (contactId : Nat) (companyId : Nat)
deriving DecidableEq

structure Env where
  info : Option Nat
  charById : Nat → Option Character
  locByUrl : String → Option Location
  fault : HsCall → Bool

/-! ## Per-record resolvers (find-or-create with fallback-to-create)

`companyResolveStep` is the body of the per-location inner `try` block
(hubspotMigrationService.js lines 134-177): search by name; if found,
update; else create; and if anything inside that `try` throws — including
the search itself — the `catch (searchError)` block performs an
unconditional create.  If that create also throws, the per-record outer
`catch` swallows the error and the record is skipped (`none`).  On success
the result is the record id, the new state, and whether the record was
created (as opposed to updated). -/

/-- The inner `try` block: search by name; found → update, else create.
`.error ()` is a thrown error. -/
def companyResolveInner (env : Env) (st : CrmState) (obj : CompanyProps) :
    Except Unit (Nat × CrmState × Bool) :=
  if env.fault (.companySearch obj.name) then .error ()
  else
    match searchCompanyByName st obj.name with
    | some r =>
      if env.fault (.companyUpdate r.id) then .error ()
      else .ok (r.id, updateCompanyInState st r.id obj, false)
    | none =>
      if env.fault (.companyCreate obj.name false) then .error ()
      else .ok (st.nextId, createCompanyInState st obj, true)

def companyResolveStep (env : Env) (st : CrmState) (obj : CompanyProps) :
    Option (Nat × CrmState × Bool) :=
  match companyResolveInner env st obj with
  | .ok res => some res
  | .error _ =>
    if env.fault (.companyCreate obj.name true) then none
    else some (st.nextId, createCompanyInState st obj, true)

/-- The contact analogue (hubspotMigrationService.js lines 195-238): search
by the derived email; found → update, else create; on any error in the inner
`try` the `catch (searchError)` block creates unconditionally; if that also
throws, the per-character outer `catch` skips the record. -/
def contactResolveInner (env : Env) (st : CrmState) (obj : ContactProps) :
    Except Unit (Nat × CrmState × Bool) :=
  if env.fault (.contactSearch obj.email) then .error ()
  else
    match searchContactByEmail st obj.email with
    | some r =>
      if env.fault (.contactUpdate r.id) then .error ()
      else .ok (r.id, updateContactInState st r.id obj, false)
    | none =>
      if env.fault (.contactCreate obj.email false) then .error ()
      else .ok (st.nextId, createContactInState st obj, true)

def contactResolveStep (env : Env) (st : CrmState) (obj : ContactProps) :
    Option (Nat × CrmState × Bool) :=
  match contactResolveInner env st obj with
  | .ok res => some res
  | .error _ =>
    if env.fault (.contactCreate obj.email true) then none
    else some (st.nextId, createContactInState st obj, true)

/-! ## The three-phase orchestrator `migrateRickAndMortyToHubspot` -/

/-- Phase 0: `for (let i = 1; i <= Math.min(826, totalCharacters); i++)
if (i === 1 || isPrime(i)) { try { push(await getCharacterById(i)) } catch
{ skip } }`. -/
def selectChars (env : Env) (count : Nat) : List Character :=
  (List.range' 1 (min 826 count)).filterMap
    (fun i => if selectsId i then env.charById i else none)

/-- `charactersToMigrate.map(c => c.origin?.url).filter(Boolean)`: the empty
string is falsy and is filtered out. -/
def charOriginUrls (chars : List Character) : List String :=
  chars.filterMap (fun c =>
    match c.originUrl with
    | some u => if u == "" then none else some u
    | none => none)

/-- `[...new Set(list)]`: deduplicate keeping first occurrences. -/
def dedupFirstAux : List String → List String → List String
  | [], _ => []
  | x :: xs, seen =>
    if seen.contains x then dedupFirstAux xs seen
    else x :: dedupFirstAux xs (x :: seen)

def dedupFirst (l : List String) : List String :=
  dedupFirstAux l []

/-- Accumulator of phase 1.  `cmap` is `companyLocationMap` (location URL →
HubSpot company id; insertion prepends, lookup takes the first match, which
matches `Map.set`/`Map.get` since each URL is inserted at most once per
run).  `resolved` records the ids returned by successful company
create/update calls, and `created`/`updated` count them. -/
structure CompanyAcc where
  st : CrmState
  cmap : List (String × Nat)
  resolved : List Nat
  created : Nat
  updated : Nat

/-- One iteration of the phase-1 loop over `uniqueLocationUrls`
(hubspotMigrationService.js lines 124-185).  A failed location fetch or a
fully failed upsert leaves the accumulator unchanged (per-record `catch`;
in particular no `cmap` entry is added on a failure path). -/
def companyPhaseStep (env : Env) (acc : CompanyAcc) (url : String) : CompanyAcc :=
  match env.locByUrl url with
  | none => acc
  | some loc =>
    match companyResolveStep env acc.st (locationToCompanyMapping loc) with
    | none => acc
    | some (cid, st2, wasCreated) =>
      { st := st2
        cmap := (url, cid) :: acc.cmap
        resolved := cid :: acc.resolved
        created := acc.created + (if wasCreated then 1 else 0)
        updated := acc.updated + (if wasCreated then 0 else 1) }

def phase1 (env : Env) (st : CrmState) (urls : List String) : CompanyAcc :=
  urls.foldl (companyPhaseStep env) { st := st, cmap := [], resolved := [], created := 0, updated := 0 }

/-- Accumulator of phase 2.  `pushed` is `createdOrUpdatedContacts`: the
records (HubSpot id plus the written properties) of the contacts whose
upsert succeeded, in order. -/
structure ContactAcc where
  st : CrmState
  pushed : List ContactRec
  created : Nat
  updated : Nat

/-- One iteration of the phase-2 loop over `charactersToMigrate`
(hubspotMigrationService.js lines 189-249).  A fully failed upsert is caught
by the per-character `catch` and the contact is not pushed. -/
def contactPhaseStep (env : Env) (acc : ContactAcc) (c : Character) : ContactAcc :=
  match contactResolveStep env acc.st (characterToContactMapping c) with
  | none => acc
  | some (cid, st2, wasCreated) =>
    { st := st2
      pushed := acc.pushed ++ [{ id := cid, props := characterToContactMapping c }]
      created := acc.created + (if wasCreated then 1 else 0)
      updated := acc.updated + (if wasCreated then 0 else 1) }

def phase2 (env : Env) (st : CrmState) (chars : List Character) : ContactAcc :=
  chars.foldl (contactPhaseStep env) { st := st, pushed := [], created := 0, updated := 0 }

/-- `companyLocationMap.get(url)`. -/
def lookupUrl (cmap : List (String × Nat)) (u : String) : Option Nat :=
  (cmap.find? (fun p => p.1 == u)).map (fun p => p.2)

/-- `const companyId = locationUrl ? companyLocationMap.get(locationUrl) :
null` — the empty string is falsy. -/
def assocCompanyId (c : Character) (cmap : List (String × Nat)) : Option Nat :=
  match c.originUrl with
  | some u => if u == "" then none else lookupUrl cmap u
  | none => none

/-- One iteration of the phase-3 loop over `createdOrUpdatedContacts`
(hubspotMigrationService.js lines 253-296): find the original character by
`character_id`, look its origin URL up in `companyLocationMap`, and create
the association; a missing character, URL, or map entry is a logged skip,
and an association failure is caught and logged. -/
def assocPhaseStep (env : Env) (chars : List Character) (cmap : List (String × Nat))
    (st : CrmState) (contact : ContactRec) : CrmState :=
  match chars.find? (fun c => toString c.id == contact.props.character_id) with
  | none => st
  | some c =>
    match assocCompanyId c cmap with
    | some cid =>
      if env.fault (.assocCreate contact.id cid) then st
      else { st with assocs := st.assocs ++ [(contact.id, cid)] }
    | none => st

def phase3 (env : Env) (chars : List Character) (cmap : List (String × Nat))
    (st : CrmState) (pushed : List ContactRec) : CrmState :=
  pushed.foldl (assocPhaseStep env chars cmap) st

/-- Observable output of one completed run. -/
structure SyncOut where
  finalState : CrmState
  cmap : List (String × Nat)
  resolvedCompanyIds : List Nat
  companiesCreated : Nat
  companiesUpdated : Nat
  contactsCreated : Nat
  contactsUpdated : Nat
  contactsProcessed : Nat
  companiesProcessed : Nat

/-- `uniqueLocationUrls` for a run. -/
def runUrls (env : Env) (count : Nat) : List String :=
  dedupFirst (charOriginUrls (selectChars env count))

/-- The phase-1 result of a run (`companyLocationMap` and the state after
the company upserts). -/
def runA1 (env : Env) (count : Nat) (st : CrmState) : CompanyAcc :=
  phase1 env st (runUrls env count)

/-- The phase-2 result of a run (`createdOrUpdatedContacts` and the state
after the contact upserts). -/
def runA2 (env : Env) (count : Nat) (st : CrmState) : ContactAcc :=
  phase2 env (runA1 env count st).st (selectChars env count)

/-- The destination state after phase 3. -/
def runFin (env : Env) (count : Nat) (st : CrmState) : CrmState :=
  phase3 env (selectChars env count) (runA1 env count st).cmap
    (runA2 env count st).st (runA2 env count st).pushed

/-- The body of `migrateRickAndMortyToHubspot` after the initial
`getCharactersInfo()` succeeded with character count `count`. -/
def runBody (env : Env) (count : Nat) (st : CrmState) : SyncOut :=
  { finalState := runFin env count st
    cmap := (runA1 env count st).cmap
    resolvedCompanyIds := (runA1 env count st).resolved
    companiesCreated := (runA1 env count st).created
    companiesUpdated := (runA1 env count st).updated
    contactsCreated := (runA2 env count st).created
    contactsUpdated := (runA2 env count st).updated
    contactsProcessed := (runA2 env count st).pushed.length
    companiesProcessed := (runA1 env count st).cmap.length }

/-- `migrateRickAndMortyToHubspot`: the outer `try`/`catch` rethrows, so the
entry point throws exactly when the initial catalog fetch fails; otherwise
the run completes and produces its summary. -/
def runFullSync (env : Env) (st : CrmState) : Except Unit SyncOut :=
  match env.info with
  | none => .error ()
  | some count => .ok (runBody env count st)

/-- Number of records in the destination (contacts plus companies;
associations are links, not records). -/
def recordCount (st : CrmState) : Nat :=
  st.contacts.length + st.companies.length

/-! ## Webhook upserts (src/routes/webhookRoutes.js)

These resolve against the mirror account.  Contacts resolve by the stable
external-id property `character_id`; companies resolve by `name`
(case-sensitive `EQ` filter). -/

/-- The properties written by the webhook contact upsert (webhookRoutes.js
lines 46-54). -/
structure MirrorContactProps where
  firstname : String
  lastname : String
  email : String
  character_id : String
  character_status : String
  character_species : String
  character_gender : String
deriving DecidableEq, Repr

structure MirrorState where
  mcontacts : List (Nat × MirrorContactProps)
  mcompanies : List (Nat × String)
  massocs : List (Nat × Nat)
  mNextId : Nat
deriving DecidableEq, Repr

/-- The payload of a contact webhook (`req.body`); `none` models an absent
field. -/
structure WebhookContact where
  character_id : Option String
  email : Option String
  firstname : Option String
  lastname : Option String
  character_status : Option String
  character_species : Option String
  character_gender : Option String
  company_name : Option String
deriving DecidableEq, Repr

/-- JS truthiness for an optional string: absent and `""` are falsy. -/
def truthy : Option String → Option String
  | some s => if s == "" then none else some s
  | none => none

/-- `data.field || ''`. -/
def orEmpty : Option String → String
  | some s => s
  | none => ""

def webhookContactProps (d : WebhookContact) (cid em : String) : MirrorContactProps :=
  { firstname := orEmpty d.firstname
    lastname := orEmpty d.lastname
    email := em
    character_id := cid
    character_status := orEmpty d.character_status
    character_species := orEmpty d.character_species
    character_gender := orEmpty d.character_gender }

/-- `handleCompanyAssociation(contactId, companyName)` (webhookRoutes.js
lines 119-154): search the mirror companies by exact name; if found, create
the association; a missing company is only a warning, and errors are caught
locally. -/
def handleCompanyAssociation (contactId : Nat) (companyName : String)
    (st : MirrorState) : MirrorState :=
  match st.mcompanies.find? (fun p => p.2 == companyName) with
  | some p => { st with massocs := st.massocs ++ [(contactId, p.1)] }
  | none => st

/-- `upsertContact(data)` (webhookRoutes.js lines 34-112): require truthy
`character_id` and `email`; search by `character_id EQ`, `limit: 1`; if
found, update that record and answer `'updated'`, else create and answer
`'created'`; then, when `company_name` is truthy, attempt the company
association. -/
def upsertContact (d : WebhookContact) (st : MirrorState) :
    Except String (String × MirrorState) :=
  match truthy d.character_id, truthy d.email with
  | some cid, some em =>
    let props := webhookContactProps d cid em
    match st.mcontacts.find? (fun q => q.2.character_id == cid) with
    | some q =>
      let st1 : MirrorState :=
        { st with mcontacts := st.mcontacts.map (fun r => if r.1 == q.1 then (r.1, props) else r) }
      let st2 :=
        match truthy d.company_name with
        | some nm => handleCompanyAssociation q.1 nm st1
        | none => st1
      .ok ("updated", st2)
    | none =>
      let st1 : MirrorState :=
        { st with mcontacts := st.mcontacts ++ [(st.mNextId, props)], mNextId := st.mNextId + 1 }
      let st2 :=
        match truthy d.company_name with
        | some nm => handleCompanyAssociation st.mNextId nm st1
        | none => st1
      .ok ("created", st2)
  | _, _ => .error "Both character_id and email are required"

/-- `upsertCompany(data)` (webhookRoutes.js lines 162-218): require a truthy
`name`; search by `name EQ`, `limit: 1`; found → update and `'updated'`,
else create and `'created'`. -/
def upsertCompany (dataName : Option String) (st : MirrorState) :
    Except String (String × MirrorState) :=
  match truthy dataName with
  | none => .error "Company name is required"
  | some nm =>
    match st.mcompanies.find? (fun p => p.2 == nm) with
    | some p =>
      .ok ("updated",
        { st with mcompanies := st.mcompanies.map (fun q => if q.1 == p.1 then (q.1, nm) else q) })
    | none =>
      .ok ("created",
        { st with mcompanies := st.mcompanies ++ [(st.mNextId, nm)], mNextId := st.mNextId + 1 })

/-! ## Lemmas about the retry loop -/

/-- A retryable failure of attempt `i` makes the loop sleep for
`backoffDelayOf e i` and move on to attempt `i + 1`. -/
lemma retryLoopAux_retry_step {α β : Type} (attempts : Nat → AttemptOutcome α) (arg0 : β)
    (fuel i : Nat) (tried delays : List Nat) (e : JsError)
    (hatt : attempts i = .err e) (hr : retryableError e = true) :
    retryLoopAux attempts arg0 (fuel + 1) i tried delays
      = retryLoopAux attempts arg0 fuel (i + 1) (tried ++ [i])
          (delays ++ [backoffDelayOf e i]) := by
  cases h429 : (e.status == some 429) with
  | true => simp [retryLoopAux, hatt, h429, backoffDelayOf]
  | false =>
    have htr : isTransientError e = true := by
      unfold retryableError at hr
      rw [h429] at hr
      simpa using hr
    simp [retryLoopAux, hatt, h429, htr, backoffDelayOf]

/-- Three consecutive retryable failures exhaust the wrapper: three attempts
are made, the computed delays are `backoffDelayOf` of each error, and the
thrown error carries `arg0` (the call's first argument). -/
lemma retryLoop_three_exhaust {α β : Type} (attempts : Nat → AttemptOutcome α) (arg0 : β)
    (es : Nat → JsError)
    (h0 : attempts 0 = .err (es 0)) (h1 : attempts 1 = .err (es 1))
    (h2 : attempts 2 = .err (es 2))
    (r0 : retryableError (es 0) = true) (r1 : retryableError (es 1) = true)
    (r2 : retryableError (es 2) = true) :
    makeHubspotApiCallWithRetry attempts arg0
      = .thrownExhausted arg0 [0, 1, 2]
          [backoffDelayOf (es 0) 0, backoffDelayOf (es 1) 1, backoffDelayOf (es 2) 2] := by
  have t0 : retryLoopAux attempts arg0 3 0 [] []
      = retryLoopAux attempts arg0 2 1 [0] [backoffDelayOf (es 0) 0] := by
    simpa using retryLoopAux_retry_step attempts arg0 2 0 [] [] (es 0) h0 r0
  have t1 : retryLoopAux attempts arg0 2 1 [0] [backoffDelayOf (es 0) 0]
      = retryLoopAux attempts arg0 1 2 [0, 1]
          [backoffDelayOf (es 0) 0, backoffDelayOf (es 1) 1] := by
    simpa using retryLoopAux_retry_step attempts arg0 1 1 [0] [backoffDelayOf (es 0) 0] (es 1) h1 r1
  have t2 : retryLoopAux attempts arg0 1 2 [0, 1]
        [backoffDelayOf (es 0) 0, backoffDelayOf (es 1) 1]
      = retryLoopAux attempts arg0 0 3 [0, 1, 2]
          [backoffDelayOf (es 0) 0, backoffDelayOf (es 1) 1, backoffDelayOf (es 2) 2] := by
    simpa using retryLoopAux_retry_step attempts arg0 0 2 [0, 1]
      [backoffDelayOf (es 0) 0, backoffDelayOf (es 1) 1] (es 2) h2 r2
  unfold makeHubspotApiCallWithRetry MAX_HUBSPOT_RETRIES
  rw [t0, t1, t2]
  rfl

/-- When the wait hint of a 429 is absent or parses to zero (and for every
non-429 error), the computed delay is the exponential one. -/
lemma backoffDelayOf_no_hint (e : JsError) (i : Nat) (hnh : usesWaitHint e = false) :
    backoffDelayOf e i = HUBSPOT_INITIAL_RETRY_DELAY_MS * 2 ^ i := by
  unfold backoffDelayOf
  cases h429 : (e.status == some 429) with
  | false => simp [h429]
  | true =>
    unfold usesWaitHint at hnh
    rw [h429] at hnh
    simp only [Bool.true_and] at hnh
    cases hh : e.retryAfterHeader with
    | none => simp [rateLimitDelay, hh]
    | some s =>
      rw [hh] at hnh
      simp only [Bool.not_eq_false'] at hnh
      simp [rateLimitDelay, hh, hnh]

/-! ## Claim theorems: resilient client -/

/-- C5: for every operation and every error that is neither a rate-limit
signal (status 429) nor transient (status ≥ 500, `ECONNABORTED`,
`ETIMEDOUT`), the retry loop, at whatever attempt the error occurs, throws
that error immediately: the result is `thrownNonRetryable e`, no backoff
delay is appended, and no later attempt is consumed (the trace of tried
attempts ends at `i`). -/
theorem C5_nonretryable_fails_immediately {α β : Type} (attempts : Nat → AttemptOutcome α)
    (arg0 : β) (fuel i : Nat) (tried delays : List Nat) (e : JsError)
    (hatt : attempts i = .err e)
    (h429 : (e.status == some 429) = false)
    (htr : isTransientError e = false) :
    retryLoopAux attempts arg0 (fuel + 1) i tried delays
      = .thrownNonRetryable e (tried ++ [i]) delays := by
  simp [retryLoopAux, hatt, h429, htr]

def c5AttemptsW : Nat → AttemptOutcome Nat :=
  fun _ => .err { status := some 404, code := none, retryAfterHeader := none }

/-- Witness for C5: a 404 on the very first attempt of a full run is thrown
at once, with no retries and no delays. -/
theorem C5_witness :
    retryLoopAux c5AttemptsW (0 : Nat) (2 + 1) 0 [] []
      = .thrownNonRetryable { status := some 404, code := none, retryAfterHeader := none } [0] [] :=
  C5_nonretryable_fails_immediately c5AttemptsW 0 2 0 [] []
    { status := some 404, code := none, retryAfterHeader := none } rfl rfl rfl

def c6Attempts : Nat → AttemptOutcome Nat := fun i =>
  if i == 2 then .err { status := some 503, code := none, retryAfterHeader := none }
  else .err { status := some 500, code := none, retryAfterHeader := none }

def c6Arg : JsError := { status := some 400, code := none, retryAfterHeader := none }

/-- C6 counterexample: a run whose three attempts all fail with server
errors, the last of which is a 503.  The wrapper does make exactly three
attempts and throws a retries-exhausted error, but that error carries
`args[0]` (`finalError.originalError = args[0]`, here `c6Arg`), not the last
error encountered (the 503): the claim's "carrying the last error
encountered" is false. -/
theorem C6_counterexample :
    makeHubspotApiCallWithRetry c6Attempts c6Arg
        = .thrownExhausted c6Arg [0, 1, 2] [2000, 4000, 8000]
      ∧ c6Attempts 2 = .err { status := some 503, code := none, retryAfterHeader := none }
      ∧ c6Arg ≠ { status := some 503, code := none, retryAfterHeader := none } :=
  ⟨rfl, rfl, by decide⟩

/-- C6 as amended: if every attempt fails retryably, the wrapper makes
exactly 3 attempts (the trace of consumed attempt indices is `[0, 1, 2]`)
and then throws a retries-exhausted error — but the error carries the
call's first argument (`args[0]`), not the last error encountered. -/
theorem C6_retries_exhausted_after_three_attempts {α β : Type}
    (attempts : Nat → AttemptOutcome α) (arg0 : β) (es : Nat → JsError)
    (hatt : ∀ i, i < 3 → attempts i = .err (es i))
    (hr : ∀ i, i < 3 → retryableError (es i) = true) :
    makeHubspotApiCallWithRetry attempts arg0
      = .thrownExhausted arg0 [0, 1, 2]
          [backoffDelayOf (es 0) 0, backoffDelayOf (es 1) 1, backoffDelayOf (es 2) 2] :=
  retryLoop_three_exhaust attempts arg0 es
    (hatt 0 (by omega)) (hatt 1 (by omega)) (hatt 2 (by omega))
    (hr 0 (by omega)) (hr 1 (by omega)) (hr 2 (by omega))

def c6AttemptsW : Nat → AttemptOutcome Nat :=
  fun _ => .err { status := some 500, code := none, retryAfterHeader := none }

/-- Witness for the amended C6: three straight 500s exhaust the retries
after exactly the attempts 0, 1, 2. -/
theorem C6_amended_witness :
    makeHubspotApiCallWithRetry c6AttemptsW (7 : Nat)
      = .thrownExhausted 7 [0, 1, 2]
          [backoffDelayOf { status := some 500, code := none, retryAfterHeader := none } 0,
           backoffDelayOf { status := some 500, code := none, retryAfterHeader := none } 1,
           backoffDelayOf { status := some 500, code := none, retryAfterHeader := none } 2] :=
  C6_retries_exhausted_after_three_attempts c6AttemptsW 7
    (fun _ => { status := some 500, code := none, retryAfterHeader := none })
    (fun _ _ => rfl) (fun _ _ => rfl)

def c7Attempts : Nat → AttemptOutcome Nat := fun i =>
  if i == 0 then .err { status := some 429, code := none, retryAfterHeader := some 5 }
  else .err { status := some 500, code := none, retryAfterHeader := none }

/-- C7 counterexample: three consecutive transient failures — a rate-limit
(429) carrying a server wait hint of 5 seconds, then two server errors
(500).  The computed delays are `[5000, 4000, 8000]`, which is *not*
non-decreasing (5000 > 4000): the hint overrides the exponential schedule
for attempt 0 and breaks monotonicity. -/
theorem C7_counterexample :
    makeHubspotApiCallWithRetry c7Attempts (0 : Nat)
        = .thrownExhausted 0 [0, 1, 2] [5000, 4000, 8000]
      ∧ delaysNonDecreasing [5000, 4000, 8000] = false :=
  ⟨rfl, rfl⟩

/-- C7 as amended: when none of the three consecutive retryable failures
carries an effective server wait hint (a nonzero `retry-after` on a 429),
the delay for attempt `i` is exactly `initial_delay * 2^i`, so the delay
sequence is `[2000, 4000, 8000]` and is non-decreasing; and whenever an
effective wait hint *is* present on a rate-limit response, it overrides the
exponential delay (`hint * 1000`), which is what can break monotonicity. -/
theorem C7_backoff_nondecreasing_without_hint {α β : Type}
    (attempts : Nat → AttemptOutcome α) (arg0 : β) (es : Nat → JsError)
    (hatt : ∀ i, i < 3 → attempts i = .err (es i))
    (hr : ∀ i, i < 3 → retryableError (es i) = true)
    (hnh : ∀ i, i < 3 → usesWaitHint (es i) = false) :
    makeHubspotApiCallWithRetry attempts arg0
        = .thrownExhausted arg0 [0, 1, 2]
            [HUBSPOT_INITIAL_RETRY_DELAY_MS * 2 ^ 0,
             HUBSPOT_INITIAL_RETRY_DELAY_MS * 2 ^ 1,
             HUBSPOT_INITIAL_RETRY_DELAY_MS * 2 ^ 2]
      ∧ delaysNonDecreasing
          [HUBSPOT_INITIAL_RETRY_DELAY_MS * 2 ^ 0,
           HUBSPOT_INITIAL_RETRY_DELAY_MS * 2 ^ 1,
           HUBSPOT_INITIAL_RETRY_DELAY_MS * 2 ^ 2] = true
      ∧ (∀ (e : JsError) (i s : Nat), e.status = some 429 → e.retryAfterHeader = some s →
           s ≠ 0 → backoffDelayOf e i = s * 1000) := by
  refine ⟨?_, by decide, ?_⟩
  · have h := retryLoop_three_exhaust attempts arg0 es
      (hatt 0 (by omega)) (hatt 1 (by omega)) (hatt 2 (by omega))
      (hr 0 (by omega)) (hr 1 (by omega)) (hr 2 (by omega))
    rw [h, backoffDelayOf_no_hint _ _ (hnh 0 (by omega)),
      backoffDelayOf_no_hint _ _ (hnh 1 (by omega)),
      backoffDelayOf_no_hint _ _ (hnh 2 (by omega))]
  · intro e i s hs hh hnz
    unfold backoffDelayOf rateLimitDelay
    rw [hs, hh]
    have hz : (s * 1000 == 0) = false := by
      simp only [beq_eq_false_iff_ne, ne_eq]
      omega
    simp [hz]

def c7AttemptsW : Nat → AttemptOutcome Nat :=
  fun _ => .err { status := none, code := some "ETIMEDOUT", retryAfterHeader := none }

/-- Witness for the amended C7: three straight connection timeouts produce
the exponential, non-decreasing schedule. -/
theorem C7_amended_witness :
    makeHubspotApiCallWithRetry c7AttemptsW (0 : Nat)
        = .thrownExhausted 0 [0, 1, 2]
            [HUBSPOT_INITIAL_RETRY_DELAY_MS * 2 ^ 0,
             HUBSPOT_INITIAL_RETRY_DELAY_MS * 2 ^ 1,
             HUBSPOT_INITIAL_RETRY_DELAY_MS * 2 ^ 2]
      ∧ delaysNonDecreasing
          [HUBSPOT_INITIAL_RETRY_DELAY_MS * 2 ^ 0,
           HUBSPOT_INITIAL_RETRY_DELAY_MS * 2 ^ 1,
           HUBSPOT_INITIAL_RETRY_DELAY_MS * 2 ^ 2] = true :=
  And.intro
    (C7_backoff_nondecreasing_without_hint c7AttemptsW 0
      (fun _ => { status := none, code := some "ETIMEDOUT", retryAfterHeader := none })
      (fun _ _ => rfl) (fun _ _ => rfl) (fun _ _ => rfl)).1
    (C7_backoff_nondecreasing_without_hint c7AttemptsW 0
      (fun _ => { status := none, code := some "ETIMEDOUT", retryAfterHeader := none })
      (fun _ _ => rfl) (fun _ _ => rfl) (fun _ _ => rfl)).2.1

/-! ## Claim theorems: selection and email derivation -/

/-- C3: over the id range 1..20 the selection predicate `i === 1 ||
isPrime(i)` selects exactly {1, 2, 3, 5, 7, 11, 13, 17, 19}, and `isPrime`
agrees with mathematical primality on that whole range. -/
theorem C3_selection_correct :
    ((List.range' 1 20).filter selectsId = [1, 2, 3, 5, 7, 11, 13, 17, 19])
      ∧ ((List.range' 1 20).all (fun n => isPrime n == decide (Nat.Prime n)) = true) := by
  constructor
  · rfl
  · decide

def rickCharacter : Character :=
  { id := 1, name := "Rick Sanchez", status := "Alive", species := "Human",
    gender := "Male", originUrl := some "https://rickandmortyapi.com/api/location/1" }

def symbolCharacter : Character :=
  { id := 2, name := "???", status := "unknown", species := "unknown",
    gender := "unknown", originUrl := none }

/-- C4 counterexample: the live mapper
(`hubspotMigrationService.js` line 56) keeps every non-whitespace character
of the name and inserts an underscore before the id, and it performs no
email-format check at all.  For "Rick Sanchez" with id 1 the local part is
`ricksanchez_1`, which does not match `^[a-z0-9]+1$` (the underscore is
outside the class); and for a name with no alphanumeric characters ("???",
id 2) the produced email `???_2@rickandmorty.com` fails the standard
format check — no id-only fallback exists on this path. -/
theorem C4_counterexample :
    (characterToContactMapping rickCharacter).email = "ricksanchez_1@rickandmorty.com"
      ∧ matchesNormNameThenOne
          (localPartChars (characterToContactMapping rickCharacter).email) = false
      ∧ isValidEmail (characterToContactMapping symbolCharacter).email = false := by
  refine ⟨rfl, by decide, by decide⟩

/-- C4 as amended: the live mapper derives the email by lower-casing the
name, stripping only whitespace, and appending an underscore, the id and a
fixed domain.  For "Rick Sanchez" id 1 the local part is `ricksanchez_1`
(so it matches `^[a-z0-9]+_1$`, not `^[a-z0-9]+1$`), and that address is
format-valid; but there is no fallback: a record whose name contains no
alphanumeric characters yields a non-empty address that fails the standard
email-format check. -/
theorem C4_email_derivation_amended :
    localPartChars (characterToContactMapping rickCharacter).email = "ricksanchez_1".data
      ∧ isValidEmail (characterToContactMapping rickCharacter).email = true
      ∧ (characterToContactMapping symbolCharacter).email = "???_2@rickandmorty.com"
      ∧ (characterToContactMapping symbolCharacter).email ≠ ""
      ∧ isValidEmail (characterToContactMapping symbolCharacter).email = false
      ∧ (∀ c : Character, (characterToContactMapping c).email
          = stripWs (lowerStr c.name) ++ "_" ++ toString c.id ++ "@rickandmorty.com") := by
  refine ⟨by decide, by decide, rfl, by decide, by decide, fun c => rfl⟩


/-! ## Claim theorems: fallback-to-create and fatality -/

/-- C8: when the existence-check search throws (in particular
non-retryably), the `catch (searchError)` fallback performs an unconditional
create — for companies and for contacts alike — and, when that create
succeeds, returns the fresh identity `st.nextId` with the created flag set,
exactly as if the record were new.  Note the statement holds for *every*
destination state `st`, including states that already contain a record with
the same natural key: the fallback does not re-check. -/
theorem C8_search_failure_falls_back_to_create (env : Env) (st : CrmState)
    (cobj : CompanyProps) (obj : ContactProps)
    (h1 : env.fault (.companySearch cobj.name) = true)
    (h2 : env.fault (.companyCreate cobj.name true) = false)
    (h3 : env.fault (.contactSearch obj.email) = true)
    (h4 : env.fault (.contactCreate obj.email true) = false) :
    companyResolveStep env st cobj = some (st.nextId, createCompanyInState st cobj, true)
      ∧ contactResolveStep env st obj = some (st.nextId, createContactInState st obj, true) := by
  constructor
  · unfold companyResolveStep companyResolveInner
    simp [h1, h2]
  · unfold contactResolveStep contactResolveInner
    simp [h3, h4]

def envC8W : Env :=
  { info := some 0
    charById := fun _ => none
    locByUrl := fun _ => none
    fault := fun c =>
      match c with
      | .companySearch _ => true
      | .contactSearch _ => true
      | _ => false }

def companyPropsW : CompanyProps :=
  { name := "Earth (C-137)", industry := "Planet", location_url := "loc1",
    location_dimension := "Dimension C-137" }

def crmStateC8W : CrmState :=
  { contacts := [], companies := [{ id := 1, props := companyPropsW }], assocs := [], nextId := 2 }

/-- Witness for C8: with the search call sites faulted and creates healthy,
both resolvers fall back to creating a fresh record — here even though the
destination already holds a company with the very same name. -/
theorem C8_witness :
    companyResolveStep envC8W crmStateC8W companyPropsW
        = some (crmStateC8W.nextId, createCompanyInState crmStateC8W companyPropsW, true)
      ∧ contactResolveStep envC8W crmStateC8W (characterToContactMapping rickCharacter)
        = some (crmStateC8W.nextId,
            createContactInState crmStateC8W (characterToContactMapping rickCharacter), true) :=
  C8_search_failure_falls_back_to_create envC8W crmStateC8W
    companyPropsW (characterToContactMapping rickCharacter) rfl rfl rfl rfl

/-- C9: the entry point throws (terminal Failed) exactly when the initial
catalog fetch fails; for every environment in which the initial fetch
succeeds — whatever per-record failures the catalog fetches, company and
contact upserts, or association creations then suffer (`env.charById`,
`env.locByUrl` and `env.fault` are universally quantified here) — the run
completes and returns its summary. -/
theorem C9_fatal_only_on_initial_fetch_failure (env : Env) (st : CrmState) :
    (runFullSync env st = .error () ↔ env.info = none)
      ∧ (∀ n, env.info = some n → runFullSync env st = .ok (runBody env n st)) := by
  cases h : env.info with
  | none => simp [runFullSync, h]
  | some n => simp [runFullSync, h]

def envNoInfoW : Env :=
  { info := none, charById := fun _ => none, locByUrl := fun _ => none, fault := fun _ => false }

def envInfoW : Env :=
  { info := some 0, charById := fun _ => none, locByUrl := fun _ => none,
    fault := fun _ => true }

/-- Witness for C9: a failed initial fetch throws; a successful initial
fetch completes with a summary even when every HubSpot call faults. -/
theorem C9_witness :
    runFullSync envNoInfoW emptyCrm = .error ()
      ∧ runFullSync envInfoW emptyCrm = .ok (runBody envInfoW 0 emptyCrm) :=
  ⟨(C9_fatal_only_on_initial_fetch_failure envNoInfoW emptyCrm).1.mpr rfl,
   (C9_fatal_only_on_initial_fetch_failure envInfoW emptyCrm).2 0 rfl⟩

/-! ## Case lemmas for the per-record steps -/

/-- Every successful company resolution is an update of, or an append to,
the incoming state. -/
lemma companyResolveInner_ok_shape (env : Env) (st : CrmState) (obj : CompanyProps)
    (cid : Nat) (st2 : CrmState) (b : Bool)
    (h : companyResolveInner env st obj = .ok (cid, st2, b)) :
    (∃ r : Nat, st2 = updateCompanyInState st r obj) ∨ st2 = createCompanyInState st obj := by
  unfold companyResolveInner at h
  split at h
  · exact absurd h (by simp)
  · split at h
    · split at h
      · exact absurd h (by simp)
      · injection h with h3
        have h4 : st2 = updateCompanyInState st _ obj := (congrArg (fun t => t.2.1) h3).symm
        exact Or.inl ⟨_, h4⟩
    · split at h
      · exact absurd h (by simp)
      · injection h with h3
        exact Or.inr (congrArg (fun t => t.2.1) h3).symm

lemma companyResolveStep_shape (env : Env) (st : CrmState) (obj : CompanyProps)
    (cid : Nat) (st2 : CrmState) (b : Bool)
    (h : companyResolveStep env st obj = some (cid, st2, b)) :
    (∃ r : Nat, st2 = updateCompanyInState st r obj) ∨ st2 = createCompanyInState st obj := by
  unfold companyResolveStep at h
  split at h
  · rename_i res hi
    obtain ⟨c1, s1, b1⟩ := res
    have h3 : s1 = st2 := by
      injection h with h4
      exact congrArg (fun t => t.2.1) h4
    rw [← h3]
    exact companyResolveInner_ok_shape env st obj c1 s1 b1 hi
  · split at h
    · exact absurd h (by simp)
    · injection h with h3
      exact Or.inr (congrArg (fun t => t.2.1) h3).symm

lemma contactResolveInner_ok_shape (env : Env) (st : CrmState) (obj : ContactProps)
    (cid : Nat) (st2 : CrmState) (b : Bool)
    (h : contactResolveInner env st obj = .ok (cid, st2, b)) :
    (∃ r : Nat, st2 = updateContactInState st r obj) ∨ st2 = createContactInState st obj := by
  unfold contactResolveInner at h
  split at h
  · exact absurd h (by simp)
  · split at h
    · split at h
      · exact absurd h (by simp)
      · injection h with h3
        have h4 : st2 = updateContactInState st _ obj := (congrArg (fun t => t.2.1) h3).symm
        exact Or.inl ⟨_, h4⟩
    · split at h
      · exact absurd h (by simp)
      · injection h with h3
        exact Or.inr (congrArg (fun t => t.2.1) h3).symm

lemma contactResolveStep_shape (env : Env) (st : CrmState) (obj : ContactProps)
    (cid : Nat) (st2 : CrmState) (b : Bool)
    (h : contactResolveStep env st obj = some (cid, st2, b)) :
    (∃ r : Nat, st2 = updateContactInState st r obj) ∨ st2 = createContactInState st obj := by
  unfold contactResolveStep at h
  split at h
  · rename_i res hi
    obtain ⟨c1, s1, b1⟩ := res
    have h3 : s1 = st2 := by
      injection h with h4
      exact congrArg (fun t => t.2.1) h4
    rw [← h3]
    exact contactResolveInner_ok_shape env st obj c1 s1 b1 hi
  · split at h
    · exact absurd h (by simp)
    · injection h with h3
      exact Or.inr (congrArg (fun t => t.2.1) h3).symm

/-- A successful company resolution never touches contacts or associations. -/
lemma companyResolveStep_preserves (env : Env) (st : CrmState) (obj : CompanyProps)
    (cid : Nat) (st2 : CrmState) (b : Bool)
    (h : companyResolveStep env st obj = some (cid, st2, b)) :
    st2.assocs = st.assocs ∧ st2.contacts = st.contacts := by
  rcases companyResolveStep_shape env st obj cid st2 b h with ⟨r, h2⟩ | h2 <;>
    · rw [h2]
      exact ⟨rfl, rfl⟩

/-- A successful contact resolution never touches companies or
associations. -/
lemma contactResolveStep_preserves (env : Env) (st : CrmState) (obj : ContactProps)
    (cid : Nat) (st2 : CrmState) (b : Bool)
    (h : contactResolveStep env st obj = some (cid, st2, b)) :
    st2.assocs = st.assocs ∧ st2.companies = st.companies := by
  rcases contactResolveStep_shape env st obj cid st2 b h with ⟨r, h2⟩ | h2 <;>
    · rw [h2]
      exact ⟨rfl, rfl⟩

/-- Either the phase-1 step skips the url (failed location fetch or failed
upsert) or it resolves it, extends the cache and the resolved list, and
bumps one counter. -/
lemma companyPhaseStep_cases (env : Env) (acc : CompanyAcc) (url : String) :
    companyPhaseStep env acc url = acc ∨
    ∃ loc cid st2 w, env.locByUrl url = some loc ∧
      companyResolveStep env acc.st (locationToCompanyMapping loc) = some (cid, st2, w) ∧
      companyPhaseStep env acc url =
        { st := st2, cmap := (url, cid) :: acc.cmap, resolved := cid :: acc.resolved,
          created := acc.created + (if w then 1 else 0),
          updated := acc.updated + (if w then 0 else 1) } := by
  unfold companyPhaseStep
  split
  · exact Or.inl rfl
  · rename_i loc hloc
    split
    · exact Or.inl rfl
    · rename_i res cid st2 w hres
      exact Or.inr ⟨loc, cid, st2, w, hloc, hres, rfl⟩

lemma contactPhaseStep_cases (env : Env) (acc : ContactAcc) (c : Character) :
    contactPhaseStep env acc c = acc ∨
    ∃ cid st2 w,
      contactResolveStep env acc.st (characterToContactMapping c) = some (cid, st2, w) ∧
      contactPhaseStep env acc c =
        { st := st2, pushed := acc.pushed ++ [{ id := cid, props := characterToContactMapping c }],
          created := acc.created + (if w then 1 else 0),
          updated := acc.updated + (if w then 0 else 1) } := by
  unfold contactPhaseStep
  split
  · exact Or.inl rfl
  · rename_i res cid st2 w hres
    exact Or.inr ⟨cid, st2, w, hres, rfl⟩

lemma assocPhaseStep_cases (env : Env) (chars : List Character)
    (cmap : List (String × Nat)) (st : CrmState) (contact : ContactRec) :
    assocPhaseStep env chars cmap st contact = st ∨
    ∃ c cid, assocCompanyId c cmap = some cid ∧
      assocPhaseStep env chars cmap st contact
        = { st with assocs := st.assocs ++ [(contact.id, cid)] } := by
  unfold assocPhaseStep
  split
  · exact Or.inl rfl
  · rename_i c hc
    split
    · rename_i cid hcid
      split
      · exact Or.inl rfl
      · exact Or.inr ⟨c, cid, hcid, rfl⟩
    · exact Or.inl rfl

/-! ## Identity-cache lemmas (C10) -/

lemma companyPhaseStep_cmap_mono (env : Env) (acc : CompanyAcc) (url : String)
    (p : String × Nat) (hp : p ∈ acc.cmap) : p ∈ (companyPhaseStep env acc url).cmap := by
  rcases companyPhaseStep_cases env acc url with h | ⟨loc, cid, st2, w, hloc, hres, h⟩
  · rw [h]
    exact hp
  · rw [h]
    exact List.mem_cons_of_mem _ hp

lemma companyPhase_fold_cmap_mono (env : Env) (urls : List String) :
    ∀ (acc : CompanyAcc) (p : String × Nat), p ∈ acc.cmap →
      p ∈ (urls.foldl (companyPhaseStep env) acc).cmap := by
  induction urls with
  | nil => intro acc p hp; exact hp
  | cons u us ih =>
    intro acc p hp
    rw [List.foldl_cons]
    exact ih _ p (companyPhaseStep_cmap_mono env acc u p hp)

lemma companyPhaseStep_sound (env : Env) (acc : CompanyAcc) (url : String)
    (hacc : ∀ p : String × Nat, p ∈ acc.cmap → p.2 ∈ acc.resolved) :
    ∀ p : String × Nat, p ∈ (companyPhaseStep env acc url).cmap →
      p.2 ∈ (companyPhaseStep env acc url).resolved := by
  intro p hp
  rcases companyPhaseStep_cases env acc url with h | ⟨loc, cid, st2, w, hloc, hres, h⟩
  · rw [h] at hp ⊢
    exact hacc p hp
  · rw [h] at hp ⊢
    rcases List.mem_cons.mp hp with h2 | h2
    · rw [h2]
      exact List.mem_cons_self _ _
    · exact List.mem_cons_of_mem _ (hacc p h2)

lemma companyPhase_fold_sound (env : Env) (urls : List String) :
    ∀ (acc : CompanyAcc), (∀ p : String × Nat, p ∈ acc.cmap → p.2 ∈ acc.resolved) →
      ∀ p : String × Nat, p ∈ (urls.foldl (companyPhaseStep env) acc).cmap →
        p.2 ∈ (urls.foldl (companyPhaseStep env) acc).resolved := by
  induction urls with
  | nil => intro acc h; exact h
  | cons u us ih =>
    intro acc h
    rw [List.foldl_cons]
    exact ih _ (companyPhaseStep_sound env acc u h)

lemma lookupUrl_mem (cmap : List (String × Nat)) (u : String) (cid : Nat)
    (h : lookupUrl cmap u = some cid) : ∃ p : String × Nat, p ∈ cmap ∧ p.2 = cid := by
  unfold lookupUrl at h
  cases hf : cmap.find? (fun p => p.1 == u) with
  | none =>
    rw [hf] at h
    exact absurd h (by simp)
  | some p =>
    rw [hf] at h
    exact ⟨p, List.mem_of_find?_eq_some hf, by simpa using h⟩

lemma assocCompanyId_mem (c : Character) (cmap : List (String × Nat)) (cid : Nat)
    (h : assocCompanyId c cmap = some cid) : ∃ p : String × Nat, p ∈ cmap ∧ p.2 = cid := by
  unfold assocCompanyId at h
  split at h
  · split at h
    · exact absurd h (by simp)
    · exact lookupUrl_mem cmap _ cid h
  · exact absurd h (by simp)

lemma assocPhaseStep_assocs_src (env : Env) (chars : List Character)
    (cmap : List (String × Nat)) (st : CrmState) (contact : ContactRec) (a : Nat × Nat)
    (ha : a ∈ (assocPhaseStep env chars cmap st contact).assocs) :
    a ∈ st.assocs ∨ ∃ p : String × Nat, p ∈ cmap ∧ p.2 = a.2 := by
  rcases assocPhaseStep_cases env chars cmap st contact with h | ⟨c, cid, hcid, h⟩
  · rw [h] at ha
    exact Or.inl ha
  · rw [h] at ha
    simp only [List.mem_append, List.mem_singleton] at ha
    rcases ha with ha | ha
    · exact Or.inl ha
    · rw [ha]
      obtain ⟨p, hp, hp2⟩ := assocCompanyId_mem c cmap cid hcid
      exact Or.inr ⟨p, hp, hp2⟩

lemma assocFold_assocs_src (env : Env) (chars : List Character)
    (cmap : List (String × Nat)) :
    ∀ (pushed : List ContactRec) (st : CrmState) (a : Nat × Nat),
      a ∈ (pushed.foldl (assocPhaseStep env chars cmap) st).assocs →
      a ∈ st.assocs ∨ ∃ p : String × Nat, p ∈ cmap ∧ p.2 = a.2 := by
  intro pushed
  induction pushed with
  | nil => intro st a ha; exact Or.inl ha
  | cons x xs ih =>
    intro st a ha
    rw [List.foldl_cons] at ha
    rcases ih (assocPhaseStep env chars cmap st x) a ha with h | h
    · exact assocPhaseStep_assocs_src env chars cmap st x a h
    · exact Or.inr h

/-! ## State-component preservation across phases -/

lemma companyPhaseStep_st_pres (env : Env) (acc : CompanyAcc) (url : String) :
    (companyPhaseStep env acc url).st.assocs = acc.st.assocs
      ∧ (companyPhaseStep env acc url).st.contacts = acc.st.contacts := by
  rcases companyPhaseStep_cases env acc url with h | ⟨loc, cid, st2, w, hloc, hres, h⟩
  · rw [h]
    exact ⟨rfl, rfl⟩
  · rw [h]
    exact companyResolveStep_preserves env acc.st _ cid st2 w hres

lemma companyPhase_fold_st_pres (env : Env) (urls : List String) :
    ∀ (acc : CompanyAcc),
      (urls.foldl (companyPhaseStep env) acc).st.assocs = acc.st.assocs
        ∧ (urls.foldl (companyPhaseStep env) acc).st.contacts = acc.st.contacts := by
  induction urls with
  | nil => intro acc; exact ⟨rfl, rfl⟩
  | cons u us ih =>
    intro acc
    rw [List.foldl_cons]
    exact ⟨(ih _).1.trans (companyPhaseStep_st_pres env acc u).1,
           (ih _).2.trans (companyPhaseStep_st_pres env acc u).2⟩

lemma contactPhaseStep_st_pres (env : Env) (acc : ContactAcc) (c : Character) :
    (contactPhaseStep env acc c).st.assocs = acc.st.assocs
      ∧ (contactPhaseStep env acc c).st.companies = acc.st.companies := by
  rcases contactPhaseStep_cases env acc c with h | ⟨cid, st2, w, hres, h⟩
  · rw [h]
    exact ⟨rfl, rfl⟩
  · rw [h]
    exact contactResolveStep_preserves env acc.st _ cid st2 w hres

lemma contactPhase_fold_st_pres (env : Env) (chars : List Character) :
    ∀ (acc : ContactAcc),
      (chars.foldl (contactPhaseStep env) acc).st.assocs = acc.st.assocs
        ∧ (chars.foldl (contactPhaseStep env) acc).st.companies = acc.st.companies := by
  induction chars with
  | nil => intro acc; exact ⟨rfl, rfl⟩
  | cons c cs ih =>
    intro acc
    rw [List.foldl_cons]
    exact ⟨(ih _).1.trans (contactPhaseStep_st_pres env acc c).1,
           (ih _).2.trans (contactPhaseStep_st_pres env acc c).2⟩

lemma assocPhaseStep_st_pres (env : Env) (chars : List Character)
    (cmap : List (String × Nat)) (st : CrmState) (contact : ContactRec) :
    (assocPhaseStep env chars cmap st contact).contacts = st.contacts
      ∧ (assocPhaseStep env chars cmap st contact).companies = st.companies
      ∧ (assocPhaseStep env chars cmap st contact).nextId = st.nextId := by
  rcases assocPhaseStep_cases env chars cmap st contact with h | ⟨c, cid, hcid, h⟩
  · rw [h]
    exact ⟨rfl, rfl, rfl⟩
  · rw [h]
    exact ⟨rfl, rfl, rfl⟩

lemma assocFold_st_pres (env : Env) (chars : List Character)
    (cmap : List (String × Nat)) :
    ∀ (pushed : List ContactRec) (st : CrmState),
      (pushed.foldl (assocPhaseStep env chars cmap) st).contacts = st.contacts
        ∧ (pushed.foldl (assocPhaseStep env chars cmap) st).companies = st.companies
        ∧ (pushed.foldl (assocPhaseStep env chars cmap) st).nextId = st.nextId := by
  intro pushed
  induction pushed with
  | nil => intro st; exact ⟨rfl, rfl, rfl⟩
  | cons x xs ih =>
    intro st
    rw [List.foldl_cons]
    exact ⟨(ih _).1.trans (assocPhaseStep_st_pres env chars cmap st x).1,
           (ih _).2.1.trans (assocPhaseStep_st_pres env chars cmap st x).2.1,
           (ih _).2.2.trans (assocPhaseStep_st_pres env chars cmap st x).2.2⟩

/-- C10: the identity cache `companyLocationMap` is sound and monotone:
(1) the phase-1 fold never removes an entry, from any intermediate point on;
(2) at the end of a run — however the catalog and the HubSpot calls fail —
every cached `(url, id)` entry carries an id that was returned by a
successful company create or update of that same run; and (3) every
association added by phase 3 (beyond what was in the destination
beforehand) takes its company id from a cache entry, hence from a company
identity successfully resolved in the same run. -/
theorem C10_identity_cache_sound (env : Env) (count : Nat) (st : CrmState) :
    (∀ (urls : List String) (acc : CompanyAcc) (p : String × Nat),
        p ∈ acc.cmap → p ∈ (urls.foldl (companyPhaseStep env) acc).cmap)
      ∧ (∀ p : String × Nat, p ∈ (runBody env count st).cmap →
          p.2 ∈ (runBody env count st).resolvedCompanyIds)
      ∧ (∀ a : Nat × Nat, a ∈ (runBody env count st).finalState.assocs →
          a ∈ st.assocs ∨ ∃ p : String × Nat, p ∈ (runBody env count st).cmap
            ∧ p.2 = a.2 ∧ p.2 ∈ (runBody env count st).resolvedCompanyIds) := by
  refine ⟨fun urls acc p hp => companyPhase_fold_cmap_mono env urls acc p hp, ?_, ?_⟩
  · intro p hp
    simp only [runBody, runA1, phase1] at hp ⊢
    exact companyPhase_fold_sound env _ _
      (by intro q hq; exact absurd hq (List.not_mem_nil q)) p hp
  · intro a ha
    simp only [runBody, runFin, runA2, runA1, phase1, phase2, phase3] at ha ⊢
    rcases assocFold_assocs_src env _ _ _ _ a ha with h | ⟨p, hp, hp2⟩
    · left
      rw [(contactPhase_fold_st_pres env _ _).1, (companyPhase_fold_st_pres env _ _).1] at h
      exact h
    · right
      refine ⟨p, hp, hp2, ?_⟩
      exact companyPhase_fold_sound env _ _
        (by intro q hq; exact absurd hq (List.not_mem_nil q)) p hp

def envC10W : Env :=
  { info := some 0, charById := fun _ => none, locByUrl := fun _ => none,
    fault := fun _ => false }

def accC10W : CompanyAcc :=
  { st := emptyCrm, cmap := [("loc1", 5)], resolved := [5], created := 0, updated := 1 }

/-- Witness for C10: a cache entry present at an intermediate point of
phase 1 is still present after the remaining urls are folded. -/
theorem C10_witness :
    ("loc1", 5) ∈ ((["loc2"] : List String).foldl (companyPhaseStep envC10W) accC10W).cmap :=
  (C10_identity_cache_sound envC10W 0 emptyCrm).1 ["loc2"] accC10W ("loc1", 5)
    (List.mem_cons_self _ _)

/-! ## Upsert correctness (C2) -/

lemma handleCompanyAssociation_pres (cid : Nat) (nm : String) (st : MirrorState) :
    (handleCompanyAssociation cid nm st).mcontacts = st.mcontacts
      ∧ (handleCompanyAssociation cid nm st).mNextId = st.mNextId := by
  unfold handleCompanyAssociation
  split
  · exact ⟨rfl, rfl⟩
  · exact ⟨rfl, rfl⟩

/-- C2: when the natural key is already present in the destination (the
exact-match search returns a record), resolution updates and never creates,
and reports "not created".  Stated for all four resolvers: the webhook
contact upsert (key: the stable external-id property `character_id`), the
webhook company upsert (key: `name`, case-sensitive `EQ`), and the
fault-free found-branches of the migration service's contact resolver (key:
the derived `email`) and company resolver (key: `name`) — the latter two
return the found record's id, an updated state, and `created = false`.
"Never creates" is witnessed by the record count and the fresh-id counter
staying unchanged (for the webhook resolvers) and by the result state being
exactly an update of the input state (for the service resolvers). -/
theorem C2_resolve_found_updates_never_creates :
    (∀ (d : WebhookContact) (st : MirrorState) (cid em : String) (q : Nat × MirrorContactProps),
        truthy d.character_id = some cid → truthy d.email = some em →
        st.mcontacts.find? (fun r => r.2.character_id == cid) = some q →
        ∃ st2, upsertContact d st = .ok ("updated", st2)
          ∧ st2.mcontacts.length = st.mcontacts.length
          ∧ st2.mNextId = st.mNextId)
      ∧ (∀ (nm : Option String) (nmv : String) (st : MirrorState) (p : Nat × String),
          truthy nm = some nmv →
          st.mcompanies.find? (fun r => r.2 == nmv) = some p →
          ∃ st2, upsertCompany nm st = .ok ("updated", st2)
            ∧ st2.mcompanies.length = st.mcompanies.length
            ∧ st2.mNextId = st.mNextId)
      ∧ (∀ (env : Env) (st : CrmState) (obj : ContactProps) (r : ContactRec),
          (∀ call, env.fault call = false) →
          searchContactByEmail st obj.email = some r →
          contactResolveStep env st obj = some (r.id, updateContactInState st r.id obj, false))
      ∧ (∀ (env : Env) (st : CrmState) (obj : CompanyProps) (r : CompanyRec),
          (∀ call, env.fault call = false) →
          searchCompanyByName st obj.name = some r →
          companyResolveStep env st obj = some (r.id, updateCompanyInState st r.id obj, false)) := by
  refine ⟨?_, ?_, ?_, ?_⟩
  · intro d st cid em q h1 h2 h3
    unfold upsertContact
    simp only [h1, h2, h3]
    refine ⟨_, rfl, ?_, ?_⟩
    · cases hcn : truthy d.company_name with
      | none => simp
      | some nm =>
        rw [(handleCompanyAssociation_pres _ _ _).1]
        simp
    · cases hcn : truthy d.company_name with
      | none => simp
      | some nm =>
        rw [(handleCompanyAssociation_pres _ _ _).2]
  · intro nm nmv st p h1 h2
    unfold upsertCompany
    simp only [h1, h2]
    exact ⟨_, rfl, by simp, rfl⟩
  · intro env st obj r hf hs
    unfold contactResolveStep contactResolveInner
    simp [hf, hs]
  · intro env st obj r hf hs
    unfold companyResolveStep companyResolveInner
    simp [hf, hs]

def webhookContactW : WebhookContact :=
  { character_id := some "1", email := some "ricksanchez_1@rickandmorty.com",
    firstname := some "Rick Sanchez", lastname := none, character_status := some "Alive",
    character_species := some "Human", character_gender := some "Male", company_name := none }

def mirrorPropsW : MirrorContactProps :=
  { firstname := "Rick", lastname := "", email := "old@rickandmorty.com",
    character_id := "1", character_status := "", character_species := "",
    character_gender := "" }

def mirrorStateW : MirrorState :=
  { mcontacts := [(7, mirrorPropsW)], mcompanies := [], massocs := [], mNextId := 8 }

/-- Witness for C2: a webhook payload whose `character_id` is already
present resolves to an update, leaving the record count and the id counter
unchanged. -/
theorem C2_witness :
    ∃ st2, upsertContact webhookContactW mirrorStateW = .ok ("updated", st2)
      ∧ st2.mcontacts.length = mirrorStateW.mcontacts.length
      ∧ st2.mNextId = mirrorStateW.mNextId :=
  C2_resolve_found_updates_never_creates.1 webhookContactW mirrorStateW
    "1" "ricksanchez_1@rickandmorty.com" (7, mirrorPropsW) rfl rfl rfl

/-! ## Idempotence (C1): destination-id invariant and name/email presence -/

def companyNames (st : CrmState) : List String :=
  st.companies.map (fun q => q.props.name)

def contactEmails (st : CrmState) : List String :=
  st.contacts.map (fun q => q.props.email)

/-- Destination ids are bounded by the fresh-id counter and pairwise
distinct (the destination assigns unique record ids). -/
def idsOk (st : CrmState) : Prop :=
  (∀ r ∈ st.companies, r.id < st.nextId) ∧ (st.companies.map CompanyRec.id).Nodup
    ∧ (∀ r ∈ st.contacts, r.id < st.nextId) ∧ (st.contacts.map ContactRec.id).Nodup

lemma idsOk_emptyCrm : idsOk emptyCrm := by
  refine ⟨?_, ?_, ?_, ?_⟩ <;> simp [emptyCrm]

lemma updateCompanyInState_ids (st : CrmState) (cid : Nat) (p : CompanyProps) :
    (updateCompanyInState st cid p).companies.map CompanyRec.id
      = st.companies.map CompanyRec.id := by
  unfold updateCompanyInState
  simp only [List.map_map]
  apply List.map_congr_left
  intro r _
  simp only [Function.comp_apply]
  split <;> rfl

lemma updateContactInState_ids (st : CrmState) (cid : Nat) (p : ContactProps) :
    (updateContactInState st cid p).contacts.map ContactRec.id
      = st.contacts.map ContactRec.id := by
  unfold updateContactInState
  simp only [List.map_map]
  apply List.map_congr_left
  intro r _
  simp only [Function.comp_apply]
  split <;> rfl

lemma idsOk_updateCompany (st : CrmState) (cid : Nat) (p : CompanyProps)
    (h : idsOk st) : idsOk (updateCompanyInState st cid p) := by
  obtain ⟨h1, h2, h3, h4⟩ := h
  refine ⟨?_, ?_, h3, h4⟩
  · intro r hr
    unfold updateCompanyInState at hr
    simp only [List.mem_map] at hr
    obtain ⟨q, hq, rfl⟩ := hr
    by_cases hb : (q.id == cid) = true <;> simp only [hb, if_true, if_false]
    · exact h1 q hq
    · exact h1 q hq
  · rw [updateCompanyInState_ids]
    exact h2

lemma idsOk_updateContact (st : CrmState) (cid : Nat) (p : ContactProps)
    (h : idsOk st) : idsOk (updateContactInState st cid p) := by
  obtain ⟨h1, h2, h3, h4⟩ := h
  refine ⟨h1, h2, ?_, ?_⟩
  · intro r hr
    unfold updateContactInState at hr
    simp only [List.mem_map] at hr
    obtain ⟨q, hq, rfl⟩ := hr
    by_cases hb : (q.id == cid) = true <;> simp only [hb, if_true, if_false]
    · exact h3 q hq
    · exact h3 q hq
  · rw [updateContactInState_ids]
    exact h4

lemma idsOk_createCompany (st : CrmState) (p : CompanyProps)
    (h : idsOk st) : idsOk (createCompanyInState st p) := by
  obtain ⟨h1, h2, h3, h4⟩ := h
  refine ⟨?_, ?_, ?_, h4⟩
  · intro r hr
    unfold createCompanyInState at hr
    simp only [List.mem_append, List.mem_singleton] at hr
    rcases hr with hr | hr
    · exact Nat.lt_succ_of_lt (h1 r hr)
    · rw [hr]
      exact Nat.lt_succ_self _
  · unfold createCompanyInState
    simp only [List.map_append, List.map_cons, List.map_nil]
    rw [List.nodup_append]
    refine ⟨h2, List.nodup_singleton _, ?_⟩
    intro a ha hb
    simp only [List.mem_singleton] at hb
    obtain ⟨q, hq, rfl⟩ := List.mem_map.mp ha
    have := h1 q hq
    omega
  · intro r hr
    exact Nat.lt_succ_of_lt (h3 r hr)

lemma idsOk_createContact (st : CrmState) (p : ContactProps)
    (h : idsOk st) : idsOk (createContactInState st p) := by
  obtain ⟨h1, h2, h3, h4⟩ := h
  refine ⟨?_, h2, ?_, ?_⟩
  · intro r hr
    exact Nat.lt_succ_of_lt (h1 r hr)
  · intro r hr
    unfold createContactInState at hr
    simp only [List.mem_append, List.mem_singleton] at hr
    rcases hr with hr | hr
    · exact Nat.lt_succ_of_lt (h3 r hr)
    · rw [hr]
      exact Nat.lt_succ_self _
  · unfold createContactInState
    simp only [List.map_append, List.map_cons, List.map_nil]
    rw [List.nodup_append]
    refine ⟨h4, List.nodup_singleton _, ?_⟩
    intro a ha hb
    simp only [List.mem_singleton] at hb
    obtain ⟨q, hq, rfl⟩ := List.mem_map.mp ha
    have := h3 q hq
    omega

lemma searchCompanyByName_props (st : CrmState) (nm : String) (r : CompanyRec)
    (h : searchCompanyByName st nm = some r) :
    r ∈ st.companies ∧ r.props.name = nm :=
  ⟨List.mem_of_find?_eq_some h, by simpa using List.find?_some h⟩

lemma searchContactByEmail_props (st : CrmState) (em : String) (r : ContactRec)
    (h : searchContactByEmail st em = some r) :
    r ∈ st.contacts ∧ r.props.email = em :=
  ⟨List.mem_of_find?_eq_some h, by simpa using List.find?_some h⟩

lemma searchCompanyByName_isSome_of_mem (st : CrmState) (nm : String)
    (h : nm ∈ companyNames st) : ∃ r, searchCompanyByName st nm = some r := by
  unfold companyNames at h
  obtain ⟨q, hq, rfl⟩ := List.mem_map.mp h
  exact Option.isSome_iff_exists.mp
    (List.find?_isSome.mpr ⟨q, hq, by simp⟩)

lemma searchContactByEmail_isSome_of_mem (st : CrmState) (em : String)
    (h : em ∈ contactEmails st) : ∃ r, searchContactByEmail st em = some r := by
  unfold contactEmails at h
  obtain ⟨q, hq, rfl⟩ := List.mem_map.mp h
  exact Option.isSome_iff_exists.mp
    (List.find?_isSome.mpr ⟨q, hq, by simp⟩)

/-- Updating the record that an exact-name search returned rewrites its
properties with the same name, so the list of company names is unchanged
(distinct ids guarantee no other record is touched). -/
lemma companyNames_update_of_found (st : CrmState) (r : CompanyRec) (p : CompanyProps)
    (hnd : (st.companies.map CompanyRec.id).Nodup)
    (hr : r ∈ st.companies) (hname : r.props.name = p.name) :
    companyNames (updateCompanyInState st r.id p) = companyNames st := by
  unfold companyNames updateCompanyInState
  simp only [List.map_map]
  apply List.map_congr_left
  intro q hq
  simp only [Function.comp]
  by_cases h : (q.id == r.id) = true
  · have hqr : q = r := List.inj_on_of_nodup_map hnd hq hr (by simpa using h)
    rw [if_pos h, hqr, ← hname]
  · rw [if_neg h]

lemma contactEmails_update_of_found (st : CrmState) (r : ContactRec) (p : ContactProps)
    (hnd : (st.contacts.map ContactRec.id).Nodup)
    (hr : r ∈ st.contacts) (hemail : r.props.email = p.email) :
    contactEmails (updateContactInState st r.id p) = contactEmails st := by
  unfold contactEmails updateContactInState
  simp only [List.map_map]
  apply List.map_congr_left
  intro q hq
  simp only [Function.comp]
  by_cases h : (q.id == r.id) = true
  · have hqr : q = r := List.inj_on_of_nodup_map hnd hq hr (by simpa using h)
    rw [if_pos h, hqr, ← hemail]
  · rw [if_neg h]

/-- Under a fault-free environment the resolvers reduce to plain
find-or-create. -/
lemma companyResolveStep_nofault (env : Env) (st : CrmState) (obj : CompanyProps)
    (hf : ∀ c, env.fault c = false) :
    companyResolveStep env st obj =
      match searchCompanyByName st obj.name with
      | some r => some (r.id, updateCompanyInState st r.id obj, false)
      | none => some (st.nextId, createCompanyInState st obj, true) := by
  unfold companyResolveStep companyResolveInner
  cases hs : searchCompanyByName st obj.name <;> simp [hf, hs]

lemma contactResolveStep_nofault (env : Env) (st : CrmState) (obj : ContactProps)
    (hf : ∀ c, env.fault c = false) :
    contactResolveStep env st obj =
      match searchContactByEmail st obj.email with
      | some r => some (r.id, updateContactInState st r.id obj, false)
      | none => some (st.nextId, createContactInState st obj, true) := by
  unfold contactResolveStep contactResolveInner
  cases hs : searchContactByEmail st obj.email <;> simp [hf, hs]

/-- Fault-free classification of one phase-1 iteration: skip (location fetch
failed), update (name found), or create (name absent). -/
lemma companyPhaseStep_nofault_cases (env : Env) (hf : ∀ c, env.fault c = false)
    (acc : CompanyAcc) (url : String) :
    (env.locByUrl url = none ∧ companyPhaseStep env acc url = acc)
    ∨ (∃ loc r, env.locByUrl url = some loc
        ∧ searchCompanyByName acc.st (locationToCompanyMapping loc).name = some r
        ∧ companyPhaseStep env acc url =
            { st := updateCompanyInState acc.st r.id (locationToCompanyMapping loc),
              cmap := (url, r.id) :: acc.cmap, resolved := r.id :: acc.resolved,
              created := acc.created, updated := acc.updated + 1 })
    ∨ (∃ loc, env.locByUrl url = some loc
        ∧ searchCompanyByName acc.st (locationToCompanyMapping loc).name = none
        ∧ companyPhaseStep env acc url =
            { st := createCompanyInState acc.st (locationToCompanyMapping loc),
              cmap := (url, acc.st.nextId) :: acc.cmap,
              resolved := acc.st.nextId :: acc.resolved,
              created := acc.created + 1, updated := acc.updated }) := by
  unfold companyPhaseStep
  cases hloc : env.locByUrl url with
  | none => exact Or.inl ⟨rfl, rfl⟩
  | some loc =>
    dsimp only
    rw [companyResolveStep_nofault env acc.st _ hf]
    cases hs : searchCompanyByName acc.st (locationToCompanyMapping loc).name with
    | some r =>
      refine Or.inr (Or.inl ⟨loc, r, rfl, hs, ?_⟩)
      rfl
    | none =>
      refine Or.inr (Or.inr ⟨loc, rfl, hs, ?_⟩)
      rfl

lemma contactPhaseStep_nofault_cases (env : Env) (hf : ∀ c, env.fault c = false)
    (acc : ContactAcc) (c : Character) :
    (∃ r, searchContactByEmail acc.st (characterToContactMapping c).email = some r
        ∧ contactPhaseStep env acc c =
            { st := updateContactInState acc.st r.id (characterToContactMapping c),
              pushed := acc.pushed ++ [{ id := r.id, props := characterToContactMapping c }],
              created := acc.created, updated := acc.updated + 1 })
    ∨ (searchContactByEmail acc.st (characterToContactMapping c).email = none
        ∧ contactPhaseStep env acc c =
            { st := createContactInState acc.st (characterToContactMapping c),
              pushed := acc.pushed ++ [{ id := acc.st.nextId, props := characterToContactMapping c }],
              created := acc.created + 1, updated := acc.updated }) := by
  unfold contactPhaseStep
  rw [contactResolveStep_nofault env acc.st _ hf]
  cases hs : searchContactByEmail acc.st (characterToContactMapping c).email with
  | some r =>
    refine Or.inl ⟨r, ?_, ?_⟩ <;> rfl
  | none =>
    refine Or.inr ⟨?_, ?_⟩ <;> rfl

/-- One fault-free phase-1 iteration preserves the id invariant, never
removes a company name, ensures the processed location's company name is
present afterwards, and leaves contacts untouched. -/
lemma companyPhaseStep_nofault_facts (env : Env) (hf : ∀ c, env.fault c = false)
    (acc : CompanyAcc) (url : String) (hok : idsOk acc.st) :
    idsOk (companyPhaseStep env acc url).st
      ∧ (∀ nm, nm ∈ companyNames acc.st → nm ∈ companyNames (companyPhaseStep env acc url).st)
      ∧ (∀ loc, env.locByUrl url = some loc →
          (locationToCompanyMapping loc).name ∈ companyNames (companyPhaseStep env acc url).st)
      ∧ (companyPhaseStep env acc url).st.contacts = acc.st.contacts := by
  rcases companyPhaseStep_nofault_cases env hf acc url with ⟨hloc, heq⟩ |
    ⟨loc, r, hloc, hs, heq⟩ | ⟨loc, hloc, hs, heq⟩
  · rw [heq]
    refine ⟨hok, fun nm h => h, ?_, rfl⟩
    intro loc h
    rw [hloc] at h
    cases h
  · rw [heq]
    obtain ⟨hrmem, hrname⟩ := searchCompanyByName_props acc.st _ r hs
    have hnames : companyNames (updateCompanyInState acc.st r.id (locationToCompanyMapping loc))
        = companyNames acc.st :=
      companyNames_update_of_found acc.st r _ hok.2.1 hrmem hrname
    refine ⟨idsOk_updateCompany _ _ _ hok, ?_, ?_, rfl⟩
    · intro nm h
      show nm ∈ companyNames (updateCompanyInState acc.st r.id (locationToCompanyMapping loc))
      rw [hnames]
      exact h
    · intro loc2 hloc2
      rw [hloc] at hloc2
      injection hloc2 with hloc3
      rw [← hloc3]
      show (locationToCompanyMapping loc).name
        ∈ companyNames (updateCompanyInState acc.st r.id (locationToCompanyMapping loc))
      rw [hnames, ← hrname]
      exact List.mem_map.mpr ⟨r, hrmem, rfl⟩
  · rw [heq]
    have hnames : companyNames (createCompanyInState acc.st (locationToCompanyMapping loc))
        = companyNames acc.st ++ [(locationToCompanyMapping loc).name] := by
      unfold companyNames createCompanyInState
      simp
    refine ⟨idsOk_createCompany _ _ hok, ?_, ?_, rfl⟩
    · intro nm h
      show nm ∈ companyNames (createCompanyInState acc.st (locationToCompanyMapping loc))
      rw [hnames]
      exact List.mem_append_left _ h
    · intro loc2 hloc2
      rw [hloc] at hloc2
      injection hloc2 with hloc3
      rw [← hloc3]
      show (locationToCompanyMapping loc).name
        ∈ companyNames (createCompanyInState acc.st (locationToCompanyMapping loc))
      rw [hnames]
      exact List.mem_append_right _ (List.mem_singleton.mpr rfl)

/-- Fault-free phase 1 (run 1): the id invariant is preserved, names only
accumulate, every successfully fetched location's company name is present at
the end, and contacts are untouched. -/
lemma companyPhase_fold_nofault (env : Env) (hf : ∀ c, env.fault c = false)
    (urls : List String) :
    ∀ (acc : CompanyAcc), idsOk acc.st →
      idsOk ((urls.foldl (companyPhaseStep env) acc).st)
        ∧ (∀ nm, nm ∈ companyNames acc.st →
            nm ∈ companyNames ((urls.foldl (companyPhaseStep env) acc).st))
        ∧ (∀ url ∈ urls, ∀ loc, env.locByUrl url = some loc →
            (locationToCompanyMapping loc).name
              ∈ companyNames ((urls.foldl (companyPhaseStep env) acc).st))
        ∧ (urls.foldl (companyPhaseStep env) acc).st.contacts = acc.st.contacts := by
  induction urls with
  | nil =>
    intro acc hok
    exact ⟨hok, fun nm h => h, fun url h => absurd h (List.not_mem_nil url), rfl⟩
  | cons u us ih =>
    intro acc hok
    obtain ⟨hok1, hmono1, hest1, hcon1⟩ := companyPhaseStep_nofault_facts env hf acc u hok
    obtain ⟨hok2, hmono2, hest2, hcon2⟩ := ih (companyPhaseStep env acc u) hok1
    rw [List.foldl_cons]
    refine ⟨hok2, ?_, ?_, ?_⟩
    · intro nm h
      exact hmono2 nm (hmono1 nm h)
    · intro url hurl loc hloc
      rcases List.mem_cons.mp hurl with h2 | h2
      · rw [h2] at hloc
        exact hmono2 _ (hest1 loc hloc)
      · exact hest2 url h2 loc hloc
    · rw [hcon2, hcon1]

/-- Fault-free phase 1 re-run (run 2): when every located url's company name
is already present, every iteration takes the update branch — nothing is
created, the company count, names, fresh-id counter and contacts are
unchanged, and the updated counter counts exactly the located urls. -/
lemma companyPhase_fold_nocreate (env : Env) (hf : ∀ c, env.fault c = false)
    (urls : List String) :
    ∀ (acc : CompanyAcc), idsOk acc.st →
      (∀ url ∈ urls, ∀ loc, env.locByUrl url = some loc →
        (locationToCompanyMapping loc).name ∈ companyNames acc.st) →
      (urls.foldl (companyPhaseStep env) acc).created = acc.created
        ∧ (urls.foldl (companyPhaseStep env) acc).st.companies.length
            = acc.st.companies.length
        ∧ companyNames ((urls.foldl (companyPhaseStep env) acc).st) = companyNames acc.st
        ∧ (urls.foldl (companyPhaseStep env) acc).st.nextId = acc.st.nextId
        ∧ (urls.foldl (companyPhaseStep env) acc).st.contacts = acc.st.contacts
        ∧ idsOk ((urls.foldl (companyPhaseStep env) acc).st)
        ∧ (urls.foldl (companyPhaseStep env) acc).updated
            = acc.updated + urls.countP (fun u => (env.locByUrl u).isSome) := by
  induction urls with
  | nil =>
    intro acc hok _
    exact ⟨rfl, rfl, rfl, rfl, rfl, hok, by simp⟩
  | cons u us ih =>
    intro acc hok hpres
    rw [List.foldl_cons]
    rcases companyPhaseStep_nofault_cases env hf acc u with ⟨hloc, heq⟩ |
      ⟨loc, r, hloc, hs, heq⟩ | ⟨loc, hloc, hs, heq⟩
    · rw [heq]
      obtain ⟨i1, i2, i3, i4, i5, i6, i7⟩ :=
        ih acc hok (fun url h loc hl => hpres url (List.mem_cons_of_mem u h) loc hl)
      refine ⟨i1, i2, i3, i4, i5, i6, ?_⟩
      rw [i7, List.countP_cons]
      simp [hloc]
    · rw [heq]
      obtain ⟨hrmem, hrname⟩ := searchCompanyByName_props acc.st _ r hs
      have hnames : companyNames (updateCompanyInState acc.st r.id (locationToCompanyMapping loc))
          = companyNames acc.st :=
        companyNames_update_of_found acc.st r _ hok.2.1 hrmem hrname
      have hok2 := idsOk_updateCompany acc.st r.id (locationToCompanyMapping loc) hok
      have hpres2 : ∀ url ∈ us, ∀ loc2, env.locByUrl url = some loc2 →
          (locationToCompanyMapping loc2).name
            ∈ companyNames (updateCompanyInState acc.st r.id (locationToCompanyMapping loc)) := by
        intro url h loc2 hl
        rw [hnames]
        exact hpres url (List.mem_cons_of_mem u h) loc2 hl
      obtain ⟨i1, i2, i3, i4, i5, i6, i7⟩ :=
        ih { st := updateCompanyInState acc.st r.id (locationToCompanyMapping loc),
             cmap := (u, r.id) :: acc.cmap, resolved := r.id :: acc.resolved,
             created := acc.created, updated := acc.updated + 1 } hok2 hpres2
      refine ⟨i1, ?_, ?_, ?_, ?_, i6, ?_⟩
      · rw [i2]
        unfold updateCompanyInState
        simp
      · rw [i3]
        exact hnames
      · rw [i4]
        rfl
      · rw [i5]
        rfl
      · rw [i7, List.countP_cons]
        simp [hloc]
        omega
    · exfalso
      have hp := hpres u (List.mem_cons_self u us) loc hloc
      obtain ⟨r, hr⟩ := searchCompanyByName_isSome_of_mem acc.st _ hp
      rw [hs] at hr
      cases hr

/-- One fault-free phase-2 iteration preserves the id invariant, never
removes a contact email, ensures the processed character's derived email is
present afterwards, and leaves companies untouched. -/
lemma contactPhaseStep_nofault_facts (env : Env) (hf : ∀ c, env.fault c = false)
    (acc : ContactAcc) (c : Character) (hok : idsOk acc.st) :
    idsOk (contactPhaseStep env acc c).st
      ∧ (∀ em, em ∈ contactEmails acc.st → em ∈ contactEmails (contactPhaseStep env acc c).st)
      ∧ (characterToContactMapping c).email ∈ contactEmails (contactPhaseStep env acc c).st
      ∧ (contactPhaseStep env acc c).st.companies = acc.st.companies := by
  rcases contactPhaseStep_nofault_cases env hf acc c with ⟨r, hs, heq⟩ | ⟨hs, heq⟩
  · rw [heq]
    obtain ⟨hrmem, hremail⟩ := searchContactByEmail_props acc.st _ r hs
    have hemails : contactEmails (updateContactInState acc.st r.id (characterToContactMapping c))
        = contactEmails acc.st :=
      contactEmails_update_of_found acc.st r _ hok.2.2.2 hrmem hremail
    refine ⟨idsOk_updateContact _ _ _ hok, ?_, ?_, rfl⟩
    · intro em h
      show em ∈ contactEmails (updateContactInState acc.st r.id (characterToContactMapping c))
      rw [hemails]
      exact h
    · show (characterToContactMapping c).email
        ∈ contactEmails (updateContactInState acc.st r.id (characterToContactMapping c))
      rw [hemails, ← hremail]
      exact List.mem_map.mpr ⟨r, hrmem, rfl⟩
  · rw [heq]
    have hemails : contactEmails (createContactInState acc.st (characterToContactMapping c))
        = contactEmails acc.st ++ [(characterToContactMapping c).email] := by
      unfold contactEmails createContactInState
      simp
    refine ⟨idsOk_createContact _ _ hok, ?_, ?_, rfl⟩
    · intro em h
      show em ∈ contactEmails (createContactInState acc.st (characterToContactMapping c))
      rw [hemails]
      exact List.mem_append_left _ h
    · show (characterToContactMapping c).email
        ∈ contactEmails (createContactInState acc.st (characterToContactMapping c))
      rw [hemails]
      exact List.mem_append_right _ (List.mem_singleton.mpr rfl)

/-- Fault-free phase 2 (run 1): the id invariant is preserved, emails only
accumulate, every selected character's derived email is present at the end,
and companies are untouched. -/
lemma contactPhase_fold_nofault (env : Env) (hf : ∀ c, env.fault c = false)
    (chars : List Character) :
    ∀ (acc : ContactAcc), idsOk acc.st →
      idsOk ((chars.foldl (contactPhaseStep env) acc).st)
        ∧ (∀ em, em ∈ contactEmails acc.st →
            em ∈ contactEmails ((chars.foldl (contactPhaseStep env) acc).st))
        ∧ (∀ c ∈ chars, (characterToContactMapping c).email
            ∈ contactEmails ((chars.foldl (contactPhaseStep env) acc).st))
        ∧ (chars.foldl (contactPhaseStep env) acc).st.companies = acc.st.companies := by
  induction chars with
  | nil =>
    intro acc hok
    exact ⟨hok, fun em h => h, fun c h => absurd h (List.not_mem_nil c), rfl⟩
  | cons c cs ih =>
    intro acc hok
    obtain ⟨hok1, hmono1, hest1, hcomp1⟩ := contactPhaseStep_nofault_facts env hf acc c hok
    obtain ⟨hok2, hmono2, hest2, hcomp2⟩ := ih (contactPhaseStep env acc c) hok1
    rw [List.foldl_cons]
    refine ⟨hok2, ?_, ?_, ?_⟩
    · intro em h
      exact hmono2 em (hmono1 em h)
    · intro c2 hc2
      rcases List.mem_cons.mp hc2 with h2 | h2
      · rw [h2]
        exact hmono2 _ hest1
      · exact hest2 c2 h2
    · rw [hcomp2, hcomp1]

/-- Fault-free phase 2 re-run (run 2): when every selected character's
derived email is already present, every iteration takes the update branch —
nothing is created, the contact count, emails, fresh-id counter and
companies are unchanged, and the updated counter counts every character. -/
lemma contactPhase_fold_nocreate (env : Env) (hf : ∀ c, env.fault c = false)
    (chars : List Character) :
    ∀ (acc : ContactAcc), idsOk acc.st →
      (∀ c ∈ chars, (characterToContactMapping c).email ∈ contactEmails acc.st) →
      (chars.foldl (contactPhaseStep env) acc).created = acc.created
        ∧ (chars.foldl (contactPhaseStep env) acc).st.contacts.length
            = acc.st.contacts.length
        ∧ contactEmails ((chars.foldl (contactPhaseStep env) acc).st) = contactEmails acc.st
        ∧ (chars.foldl (contactPhaseStep env) acc).st.nextId = acc.st.nextId
        ∧ (chars.foldl (contactPhaseStep env) acc).st.companies = acc.st.companies
        ∧ idsOk ((chars.foldl (contactPhaseStep env) acc).st)
        ∧ (chars.foldl (contactPhaseStep env) acc).updated = acc.updated + chars.length := by
  induction chars with
  | nil =>
    intro acc hok _
    exact ⟨rfl, rfl, rfl, rfl, rfl, hok, rfl⟩
  | cons c cs ih =>
    intro acc hok hpres
    rw [List.foldl_cons]
    rcases contactPhaseStep_nofault_cases env hf acc c with ⟨r, hs, heq⟩ | ⟨hs, heq⟩
    · rw [heq]
      obtain ⟨hrmem, hremail⟩ := searchContactByEmail_props acc.st _ r hs
      have hemails : contactEmails (updateContactInState acc.st r.id (characterToContactMapping c))
          = contactEmails acc.st :=
        contactEmails_update_of_found acc.st r _ hok.2.2.2 hrmem hremail
      have hok2 := idsOk_updateContact acc.st r.id (characterToContactMapping c) hok
      have hpres2 : ∀ c2 ∈ cs, (characterToContactMapping c2).email
          ∈ contactEmails (updateContactInState acc.st r.id (characterToContactMapping c)) := by
        intro c2 h
        rw [hemails]
        exact hpres c2 (List.mem_cons_of_mem c h)
      obtain ⟨i1, i2, i3, i4, i5, i6, i7⟩ :=
        ih { st := updateContactInState acc.st r.id (characterToContactMapping c),
             pushed := acc.pushed ++ [{ id := r.id, props := characterToContactMapping c }],
             created := acc.created, updated := acc.updated + 1 } hok2 hpres2
      refine ⟨i1, ?_, ?_, ?_, ?_, i6, ?_⟩
      · rw [i2]
        unfold updateContactInState
        simp
      · rw [i3]
        exact hemails
      · rw [i4]
        rfl
      · rw [i5]
        rfl
      · rw [i7]
        simp [List.length_cons]
        omega
    · exfalso
      have hp := hpres c (List.mem_cons_self c cs)
      obtain ⟨r, hr⟩ := searchContactByEmail_isSome_of_mem acc.st _ hp
      rw [hs] at hr
      cases hr


lemma idsOk_of_fields (st st2 : CrmState) (hc : st2.contacts = st.contacts)
    (hk : st2.companies = st.companies) (hn : st2.nextId = st.nextId)
    (h : idsOk st) : idsOk st2 := by
  unfold idsOk at h ⊢
  rw [hc, hk, hn]
  exact h

/-- After one fault-free run from any id-sound state: the id invariant
holds, every located url's company name is present, and every selected
character's derived email is present in the final destination state. -/
lemma runBody_establishes (env : Env) (n : Nat) (hf : ∀ c, env.fault c = false)
    (st : CrmState) (hok : idsOk st) :
    idsOk (runFin env n st)
      ∧ (∀ url ∈ runUrls env n, ∀ loc, env.locByUrl url = some loc →
          (locationToCompanyMapping loc).name ∈ companyNames (runFin env n st))
      ∧ (∀ c ∈ selectChars env n, (characterToContactMapping c).email
          ∈ contactEmails (runFin env n st)) := by
  obtain ⟨k1, k2, k3, k4⟩ := companyPhase_fold_nofault env hf (runUrls env n)
    { st := st, cmap := [], resolved := [], created := 0, updated := 0 } hok
  have a1ok : idsOk (runA1 env n st).st := k1
  have a1names : ∀ url ∈ runUrls env n, ∀ loc, env.locByUrl url = some loc →
      (locationToCompanyMapping loc).name ∈ companyNames (runA1 env n st).st := k3
  obtain ⟨m1, m2, m3, m4⟩ := contactPhase_fold_nofault env hf (selectChars env n)
    { st := (runA1 env n st).st, pushed := [], created := 0, updated := 0 } a1ok
  have a2ok : idsOk (runA2 env n st).st := m1
  have a2emails : ∀ c ∈ selectChars env n, (characterToContactMapping c).email
      ∈ contactEmails (runA2 env n st).st := m3
  have a2companies : (runA2 env n st).st.companies = (runA1 env n st).st.companies := m4
  obtain ⟨p1, p2, p3⟩ := assocFold_st_pres env (selectChars env n) (runA1 env n st).cmap
    (runA2 env n st).pushed (runA2 env n st).st
  have fc : (runFin env n st).contacts = (runA2 env n st).st.contacts := p1
  have fk : (runFin env n st).companies = (runA2 env n st).st.companies := p2
  have fn : (runFin env n st).nextId = (runA2 env n st).st.nextId := p3
  have hnamesFin : companyNames (runFin env n st) = companyNames (runA1 env n st).st := by
    unfold companyNames
    rw [fk, a2companies]
  have hemailsFin : contactEmails (runFin env n st) = contactEmails (runA2 env n st).st := by
    unfold contactEmails
    rw [fc]
  refine ⟨idsOk_of_fields _ _ fc fk fn a2ok, ?_, ?_⟩
  · intro url hurl loc hloc
    rw [hnamesFin]
    exact a1names url hurl loc hloc
  · intro c hc
    rw [hemailsFin]
    exact a2emails c hc

/-- A fault-free run from a state that already contains every located url's
company name and every selected character's derived email performs updates
only: zero creates, full update counts, and an unchanged record count. -/
lemma runBody_nocreate (env : Env) (n : Nat) (hf : ∀ c, env.fault c = false)
    (st : CrmState) (hok : idsOk st)
    (hpresC : ∀ url ∈ runUrls env n, ∀ loc, env.locByUrl url = some loc →
        (locationToCompanyMapping loc).name ∈ companyNames st)
    (hpresE : ∀ c ∈ selectChars env n, (characterToContactMapping c).email ∈ contactEmails st) :
    (runBody env n st).companiesCreated = 0
      ∧ (runBody env n st).contactsCreated = 0
      ∧ (runBody env n st).contactsUpdated = (selectChars env n).length
      ∧ (runBody env n st).companiesUpdated
          = (runUrls env n).countP (fun u => (env.locByUrl u).isSome)
      ∧ recordCount (runBody env n st).finalState = recordCount st := by
  obtain ⟨c1, c2, c3, c4, c5, c6, c7⟩ := companyPhase_fold_nocreate env hf (runUrls env n)
    { st := st, cmap := [], resolved := [], created := 0, updated := 0 } hok hpresC
  have b1created : (runA1 env n st).created = 0 := c1
  have b1len : (runA1 env n st).st.companies.length = st.companies.length := c2
  have b1next : (runA1 env n st).st.nextId = st.nextId := c4
  have b1contacts : (runA1 env n st).st.contacts = st.contacts := c5
  have b1ok : idsOk (runA1 env n st).st := c6
  have b1upd : (runA1 env n st).updated
      = 0 + (runUrls env n).countP (fun u => (env.locByUrl u).isSome) := c7
  have hpresE2 : ∀ c ∈ selectChars env n, (characterToContactMapping c).email
      ∈ contactEmails (runA1 env n st).st := by
    intro c hc
    have he : contactEmails (runA1 env n st).st = contactEmails st := by
      unfold contactEmails
      rw [b1contacts]
    rw [he]
    exact hpresE c hc
  obtain ⟨d1, d2, d3, d4, d5, d6, d7⟩ := contactPhase_fold_nocreate env hf (selectChars env n)
    { st := (runA1 env n st).st, pushed := [], created := 0, updated := 0 } b1ok hpresE2
  have b2created : (runA2 env n st).created = 0 := d1
  have b2len : (runA2 env n st).st.contacts.length = (runA1 env n st).st.contacts.length := d2
  have b2companies : (runA2 env n st).st.companies = (runA1 env n st).st.companies := d5
  have b2upd : (runA2 env n st).updated = 0 + (selectChars env n).length := d7
  obtain ⟨p1, p2, p3⟩ := assocFold_st_pres env (selectChars env n) (runA1 env n st).cmap
    (runA2 env n st).pushed (runA2 env n st).st
  have fc : (runFin env n st).contacts = (runA2 env n st).st.contacts := p1
  have fk : (runFin env n st).companies = (runA2 env n st).st.companies := p2
  refine ⟨b1created, b2created, ?_, ?_, ?_⟩
  · show (runA2 env n st).updated = (selectChars env n).length
    omega
  · show (runA1 env n st).updated = (runUrls env n).countP (fun u => (env.locByUrl u).isSome)
    omega
  · show recordCount (runFin env n st) = recordCount st
    unfold recordCount
    rw [fc, fk, b2companies]
    have hcl : (runA1 env n st).st.contacts.length = st.contacts.length := by
      rw [b1contacts]
    omega

/-- C1: against the same catalog, a second fault-free full sync starting
from the destination produced by a first full sync on an initially empty
destination leaves the destination record count unchanged — the second run
resolves every company (by exact name search) and every contact (by exact
derived-email search) to a record left by the first run, performing only
updates and zero creates: its update counters equal the number of located
urls and of selected characters, and its create counters are zero. -/
theorem C1_second_run_updates_never_creates (env : Env) (n : Nat)
    (hf : ∀ c, env.fault c = false) :
    recordCount (runBody env n (runBody env n emptyCrm).finalState).finalState
        = recordCount (runBody env n emptyCrm).finalState
      ∧ (runBody env n (runBody env n emptyCrm).finalState).companiesCreated = 0
      ∧ (runBody env n (runBody env n emptyCrm).finalState).contactsCreated = 0
      ∧ (runBody env n (runBody env n emptyCrm).finalState).contactsUpdated
          = (selectChars env n).length
      ∧ (runBody env n (runBody env n emptyCrm).finalState).companiesUpdated
          = (runUrls env n).countP (fun u => (env.locByUrl u).isSome) := by
  obtain ⟨hokF, hpC, hpE⟩ := runBody_establishes env n hf emptyCrm idsOk_emptyCrm
  obtain ⟨r1, r2, r3, r4, r5⟩ :=
    runBody_nocreate env n hf (runFin env n emptyCrm) hokF hpC hpE
  exact ⟨r5, r1, r2, r3, r4⟩

def mortyCharacter : Character :=
  { id := 2, name := "Morty Smith", status := "Alive", species := "Human",
    gender := "Male", originUrl := some "https://rickandmortyapi.com/api/location/1" }

def summerCharacter : Character :=
  { id := 3, name := "Summer Smith", status := "Alive", species := "Human",
    gender := "Female", originUrl := some "" }

def earthLocation : Location :=
  { name := "Earth (C-137)", type_ := some "Planet",
    url := "https://rickandmortyapi.com/api/location/1", dimension := "Dimension C-137" }

def envC1W : Env :=
  { info := some 3
    charById := fun i =>
      if i == 1 then some rickCharacter
      else if i == 2 then some mortyCharacter
      else if i == 3 then some summerCharacter
      else none
    locByUrl := fun u =>
      if u == "https://rickandmortyapi.com/api/location/1" then some earthLocation
      else none
    fault := fun _ => false }

/-- Witness for C1: a three-character catalog (ids 1, 2, 3 are all
selected) with one shared, located origin; the second run creates nothing
and the record count is stable. -/
theorem C1_witness :
    recordCount (runBody envC1W 3 (runBody envC1W 3 emptyCrm).finalState).finalState
        = recordCount (runBody envC1W 3 emptyCrm).finalState
      ∧ (runBody envC1W 3 (runBody envC1W 3 emptyCrm).finalState).companiesCreated = 0
      ∧ (runBody envC1W 3 (runBody envC1W 3 emptyCrm).finalState).contactsCreated = 0
      ∧ (runBody envC1W 3 (runBody envC1W 3 emptyCrm).finalState).contactsUpdated
          = (selectChars envC1W 3).length
      ∧ (runBody envC1W 3 (runBody envC1W 3 emptyCrm).finalState).companiesUpdated
          = (runUrls envC1W 3).countP (fun u => (envC1W.locByUrl u).isSome) :=
  C1_second_run_updates_never_creates envC1W 3 (fun _ => rfl)
